import Mathlib

/-!
# FreeRTOS_EDF demo application (`src/src/main.c`)

A shallow embedding of the six periodic tasks of `main.c`, of the deadline-miss
accounting around every activation, and of the byte queue `Queue1` the tasks share,
followed by the properties proved about them.

Conventions.
* `uint32_t` values are natural numbers below `UINT32_MOD`; arithmetic on them is written
  with an explicit `% UINT32_MOD`.
* A byte (`uint8_t`, `char`) is a natural number (the character code).
* Reads of the environment (`xTaskGetTickCount`, `GPIO_read`) are arguments of the
  function that embeds one pass of a task's `for( ;; )` loop.
-/

namespace FreeRTOS_EDF

/-! ## Constants of `main.c` -/

def BUTTON_1_MONITOR_P : Nat := 50
def BUTTON_2_MONITOR_P : Nat := 50
def PERIODIC_TRANSMITTER_P : Nat := 100
def UART_RECEIVER_P : Nat := 20
def LOAD_1_SIMULATION_P : Nat := 10
def LOAD_2_SIMULATION_P : Nat := 100

def PRESSED_STATE : Nat := 1
def RELEASED_STATE : Nat := 2

/-- The bytes of a C string constant, without the terminating NUL: what the loops
`for(i = 0; i < strlen(s); i++)` of `main.c` walk over. -/
def cstr (s : String) : List Nat := s.toList.map Char.toNat

/-- Source: `const char HelloCmd[] = "Hello\n\r";` -/
def HelloCmd : List Nat := cstr "Hello\n\r"
/-- Source: `const char Btn1Pressed[] = "Btn1 Pressed\n\r";` -/
def Btn1Pressed : List Nat := cstr "Btn1 Pressed\n\r"
/-- Source: `const char Btn1Released[] = "Btn1 Released\n\r";` -/
def Btn1Released : List Nat := cstr "Btn1 Released\n\r"
/-- Source: `const char Btn2Pressed[] = "Btn2 Pressed\n";` -/
def Btn2Pressed : List Nat := cstr "Btn2 Pressed\n"
/-- Source: `const char Btn2Released[] = "Btn2 Released\n";` -/
def Btn2Released : List Nat := cstr "Btn2 Released\n"

/-! ## Machine arithmetic -/

/-- Number of values of a `uint32_t`. -/
def UINT32_MOD : Nat := 4294967296

/-- Subtraction of two `uint32_t` values, as in `end_time - start_time`. -/
def sub32 (a b : Nat) : Nat := (a % UINT32_MOD + UINT32_MOD - b % UINT32_MOD) % UINT32_MOD

/-- Addition of two `uint32_t` values. -/
def add32 (a b : Nat) : Nat := (a + b) % UINT32_MOD

/-- Values of `pinState_t` returned by `GPIO_read`. -/
inductive pinState_t where
  | PIN_IS_LOW
  | PIN_IS_HIGH
  deriving DecidableEq, Repr

open pinState_t

/-! ## The byte channel -/

/-- Modelled from the spec: the queue type of `queue.h` (`QueueHandle_t`), absent from the
sources; section 3 of the specification: a fixed-capacity ring buffer of bytes with a head
index, a tail index and a count. `head` is the next slot read, `tail` the next slot
written. -/
structure Channel where
  capacity : Nat
  buf : List Nat
  head : Nat
  tail : Nat
  count : Nat
  deriving DecidableEq, Repr

/-- Modelled from the spec: `xQueueCreate(capacity, sizeof(uint8_t))` of `queue.c`, absent
from the sources: an empty channel of the given capacity. -/
def xQueueCreate (capacity : Nat) : Channel :=
  { capacity := capacity, buf := List.replicate capacity 0, head := 0, tail := 0, count := 0 }

/-- Modelled from the spec: the zero-wait send of `queue.c`, absent from the sources;
section 4.3: non-blocking, returns false and drops the byte if the channel is full. -/
def try_send (q : Channel) (b : Nat) : Channel × Bool :=
  if q.count < q.capacity then
    ({ q with buf := q.buf.set q.tail b
              tail := (q.tail + 1) % q.capacity
              count := q.count + 1 }, true)
  else (q, false)

/-- Modelled from the spec: the zero-wait receive of `queue.c`, absent from the sources;
section 4.3: non-blocking, returns nothing if the channel is empty. -/
def try_receive (q : Channel) : Channel × Option Nat :=
  if q.count = 0 then (q, none)
  else
    ({ q with head := (q.head + 1) % q.capacity
              count := q.count - 1 }, some (q.buf.getD q.head 0))

/-- The bytes stored in the channel, oldest first. -/
def Channel.contents (q : Channel) : List Nat :=
  (List.range q.count).map (fun i => q.buf.getD ((q.head + i) % q.capacity) 0)

/-- Representation invariant of the ring buffer. -/
def Channel.WF (q : Channel) : Prop :=
  0 < q.capacity ∧ q.buf.length = q.capacity ∧ q.head < q.capacity ∧
    q.tail = (q.head + q.count) % q.capacity ∧ q.count ≤ q.capacity

instance (q : Channel) : Decidable q.WF := by
  unfold Channel.WF; infer_instance

/-! ## Global variables and kernel calls -/

/-- The global variables of `main.c` that the tasks read and write, together with two
records of what the tasks hand to the outside: `serial` lists the bytes passed to
`xSerialPutChar`, oldest first, and `sendLog` lists every byte passed to `xQueueSend`,
oldest first, whether the queue accepted it or not. -/
structure Globals where
  misses : Nat
  Queue1 : Channel
  serial : List Nat
  sendLog : List Nat
  deriving DecidableEq, Repr

/-- The call `xQueueSend(Queue1, &b, 0)`: a zero-wait send on `Queue1`. -/
def xQueueSend (g : Globals) (b : Nat) : Globals × Bool :=
  let r := try_send g.Queue1 b
  ({ g with Queue1 := r.1, sendLog := g.sendLog ++ [b] }, r.2)

/-- The call `xQueueReceive(Queue1, &rx, 0)`: a zero-wait receive on `Queue1`; `some rx`
stands for the result `pdTRUE` with the byte stored in `rx`. -/
def xQueueReceive (g : Globals) : Globals × Option Nat :=
  let r := try_receive g.Queue1
  ({ g with Queue1 := r.1 }, r.2)

/-- The call `xSerialPutChar((signed char)rx)`. -/
def xSerialPutChar (g : Globals) (rx : Nat) : Globals :=
  { g with serial := g.serial ++ [rx] }

/-- Modelled from the spec: `vTaskDelayUntil(&xLastWakeTime, xTimeIncrement)` of `tasks.c`,
absent from the sources; section 4.1: block until the current tick reaches
`next_release + P` and set `next_release += P` unconditionally. The value is the new
content of `xLastWakeTime`, which is the tick the task is re-armed for; `TickType_t` is the
32-bit type of the variables `start_time` and `end_time` that hold tick counts. -/
def vTaskDelayUntil (xLastWakeTime xTimeIncrement : Nat) : Nat :=
  add32 xLastWakeTime xTimeIncrement

/-- The statement `if((end_time - start_time) > P) { misses++; }` shared by the six
tasks, with `P` the task's own constant. -/
def missCheck (P start_time end_time : Nat) (g : Globals) : Globals :=
  if sub32 end_time start_time > P then { g with misses := add32 g.misses 1 } else g

/-- The loop `for(i = 0; i < strlen(s); i++) { xQueueSend(Queue1, &s[i], 0); }`; the
result of every send is discarded. -/
def sendString (g : Globals) : List Nat → Globals
  | [] => g
  | c :: cs => sendString (xQueueSend g c).1 cs

/-! ## The six tasks

Each `_loop` function is one pass of the task's `for( ;; )` loop. `now1` and `now2` are
the values of the two calls of `xTaskGetTickCount` in the pass, `xLastWakeTime` the
task's local variable of that name, and the result holds its new value. -/

/-- The body of `Button_1_Monitor` between the two tick samples: `state` is the task's
static variable, `level` the value of `GPIO_read(PORT_0, PIN6)`. -/
def Button_1_Monitor_body (state : Nat) (level : pinState_t) (g : Globals) : Nat × Globals :=
  if state = RELEASED_STATE ∧ level = PIN_IS_HIGH then
    (PRESSED_STATE, sendString g Btn1Pressed)
  else if state = PRESSED_STATE ∧ level = PIN_IS_LOW then
    (RELEASED_STATE, sendString g Btn1Released)
  else (state, g)

/-- One pass of the loop of `Button_1_Monitor`; the result is the new `state`, the new
`xLastWakeTime` and the new globals. -/
def Button_1_Monitor_loop (portTICK_PERIOD_MS now1 now2 : Nat) (level : pinState_t)
    (state xLastWakeTime : Nat) (g : Globals) : Nat × Nat × Globals :=
  let period := BUTTON_1_MONITOR_P / portTICK_PERIOD_MS
  let start_time := now1
  let r := Button_1_Monitor_body state level g
  let end_time := now2
  (r.1, vTaskDelayUntil xLastWakeTime period,
    missCheck BUTTON_1_MONITOR_P start_time end_time r.2)

/-- The body of `Button_2_Monitor` between the two tick samples: `level` is the value of
`GPIO_read(PORT_0, PIN7)`. -/
def Button_2_Monitor_body (state : Nat) (level : pinState_t) (g : Globals) : Nat × Globals :=
  if state = RELEASED_STATE ∧ level = PIN_IS_HIGH then
    (PRESSED_STATE, sendString g Btn2Pressed)
  else if state = PRESSED_STATE ∧ level = PIN_IS_LOW then
    (RELEASED_STATE, sendString g Btn2Released)
  else (state, g)

/-- One pass of the loop of `Button_2_Monitor`. -/
def Button_2_Monitor_loop (portTICK_PERIOD_MS now1 now2 : Nat) (level : pinState_t)
    (state xLastWakeTime : Nat) (g : Globals) : Nat × Nat × Globals :=
  let period := BUTTON_2_MONITOR_P / portTICK_PERIOD_MS
  let start_time := now1
  let r := Button_2_Monitor_body state level g
  let end_time := now2
  (r.1, vTaskDelayUntil xLastWakeTime period,
    missCheck BUTTON_2_MONITOR_P start_time end_time r.2)

/-- One pass of the loop of `Periodic_Transmitter`. -/
def Periodic_Transmitter_loop (portTICK_PERIOD_MS now1 now2 : Nat)
    (xLastWakeTime : Nat) (g : Globals) : Nat × Globals :=
  let period := PERIODIC_TRANSMITTER_P / portTICK_PERIOD_MS
  let start_time := now1
  let g1 := sendString g HelloCmd
  let end_time := now2
  (vTaskDelayUntil xLastWakeTime period,
    missCheck PERIODIC_TRANSMITTER_P start_time end_time g1)

/-- The loop `while(xQueueReceive(Queue1, &rx, 0) == pdTRUE) { xSerialPutChar(rx); }` of
`Uart_Receiver`. Every successful receive lowers the count of the queue, which is why the
recursion is well founded. -/
def Uart_Receiver_drain (g : Globals) : Globals :=
  match h : xQueueReceive g with
  | (g1, some rx) => Uart_Receiver_drain (xSerialPutChar g1 rx)
  | (g1, none) => g1
termination_by g.Queue1.count
decreasing_by
  simp only [xQueueReceive, try_receive] at h
  split at h
  · simp at h
  · simp only [Prod.mk.injEq] at h
    rw [← h.1]
    simp only [xSerialPutChar]
    omega

/-- One pass of the loop of `Uart_Receiver`. -/
def Uart_Receiver_loop (portTICK_PERIOD_MS now1 now2 : Nat)
    (xLastWakeTime : Nat) (g : Globals) : Nat × Globals :=
  let period := UART_RECEIVER_P / portTICK_PERIOD_MS
  let start_time := now1
  let g1 := Uart_Receiver_drain g
  let end_time := now2
  (vTaskDelayUntil xLastWakeTime period,
    missCheck UART_RECEIVER_P start_time end_time g1)

/-- One pass of the loop of `Load_1_Simulation`; the busy loop
`for(i = 0; i < 37000; i++);` only changes the local `i`. -/
def Load_1_Simulation_loop (portTICK_PERIOD_MS now1 now2 : Nat)
    (xLastWakeTime : Nat) (g : Globals) : Nat × Globals :=
  let period := LOAD_1_SIMULATION_P / portTICK_PERIOD_MS
  let start_time := now1
  let end_time := now2
  (vTaskDelayUntil xLastWakeTime period,
    missCheck LOAD_1_SIMULATION_P start_time end_time g)

/-- One pass of the loop of `Load_2_Simulation`; the busy loop
`for(i = 0; i < 85000; i++);` only changes the local `i`. -/
def Load_2_Simulation_loop (portTICK_PERIOD_MS now1 now2 : Nat)
    (xLastWakeTime : Nat) (g : Globals) : Nat × Globals :=
  let period := LOAD_2_SIMULATION_P / portTICK_PERIOD_MS
  let start_time := now1
  let end_time := now2
  (vTaskDelayUntil xLastWakeTime period,
    missCheck LOAD_2_SIMULATION_P start_time end_time g)

/-! ## The application as a state machine -/

/-- The six tasks created by `main`. -/
inductive TaskId where
  | Button_1
  | Button_2
  | Transmitter
  | Receiver
  | Load_1
  | Load_2
  deriving DecidableEq, Repr

/-- The constant `X_P` that the task compares `end_time - start_time` against and that
it divides by `portTICK_PERIOD_MS` to get `period`. -/
def TaskId.P : TaskId → Nat
  | .Button_1 => BUTTON_1_MONITOR_P
  | .Button_2 => BUTTON_2_MONITOR_P
  | .Transmitter => PERIODIC_TRANSMITTER_P
  | .Receiver => UART_RECEIVER_P
  | .Load_1 => LOAD_1_SIMULATION_P
  | .Load_2 => LOAD_2_SIMULATION_P

/-- The state of the application between two passes: the globals, the static `state` of
the two button tasks and the local `xLastWakeTime` of each task. -/
structure System where
  g : Globals
  Button_1_state : Nat
  Button_2_state : Nat
  Button_1_wake : Nat
  Button_2_wake : Nat
  Transmitter_wake : Nat
  Receiver_wake : Nat
  Load_1_wake : Nat
  Load_2_wake : Nat
  deriving DecidableEq, Repr

/-- The `xLastWakeTime` of a task. -/
def System.wake (s : System) : TaskId → Nat
  | .Button_1 => s.Button_1_wake
  | .Button_2 => s.Button_2_wake
  | .Transmitter => s.Transmitter_wake
  | .Receiver => s.Receiver_wake
  | .Load_1 => s.Load_1_wake
  | .Load_2 => s.Load_2_wake

/-- One pass of the loop of one task, with the values the pass reads from the
environment: the two tick counts and, for a button task, the pin level. -/
inductive Activation where
  | Button_1 (now1 now2 : Nat) (level : pinState_t)
  | Button_2 (now1 now2 : Nat) (level : pinState_t)
  | Transmitter (now1 now2 : Nat)
  | Receiver (now1 now2 : Nat)
  | Load_1 (now1 now2 : Nat)
  | Load_2 (now1 now2 : Nat)
  deriving DecidableEq, Repr

/-- The task an activation belongs to. -/
def Activation.task : Activation → TaskId
  | .Button_1 _ _ _ => .Button_1
  | .Button_2 _ _ _ => .Button_2
  | .Transmitter _ _ => .Transmitter
  | .Receiver _ _ => .Receiver
  | .Load_1 _ _ => .Load_1
  | .Load_2 _ _ => .Load_2

/-- The start tick of an activation. -/
def Activation.start_time : Activation → Nat
  | .Button_1 n _ _ => n
  | .Button_2 n _ _ => n
  | .Transmitter n _ => n
  | .Receiver n _ => n
  | .Load_1 n _ => n
  | .Load_2 n _ => n

/-- The end tick of an activation. -/
def Activation.end_time : Activation → Nat
  | .Button_1 _ n _ => n
  | .Button_2 _ n _ => n
  | .Transmitter _ n => n
  | .Receiver _ n => n
  | .Load_1 _ n => n
  | .Load_2 _ n => n

/-- The effect of one activation that runs from its first tick sample to its call of
`vTaskDelayUntil` without another task running in between. -/
def step (portTICK_PERIOD_MS : Nat) (s : System) : Activation → System
  | .Button_1 now1 now2 level =>
    let r := Button_1_Monitor_loop portTICK_PERIOD_MS now1 now2 level
      s.Button_1_state s.Button_1_wake s.g
    { s with Button_1_state := r.1, Button_1_wake := r.2.1, g := r.2.2 }
  | .Button_2 now1 now2 level =>
    let r := Button_2_Monitor_loop portTICK_PERIOD_MS now1 now2 level
      s.Button_2_state s.Button_2_wake s.g
    { s with Button_2_state := r.1, Button_2_wake := r.2.1, g := r.2.2 }
  | .Transmitter now1 now2 =>
    let r := Periodic_Transmitter_loop portTICK_PERIOD_MS now1 now2 s.Transmitter_wake s.g
    { s with Transmitter_wake := r.1, g := r.2 }
  | .Receiver now1 now2 =>
    let r := Uart_Receiver_loop portTICK_PERIOD_MS now1 now2 s.Receiver_wake s.g
    { s with Receiver_wake := r.1, g := r.2 }
  | .Load_1 now1 now2 =>
    let r := Load_1_Simulation_loop portTICK_PERIOD_MS now1 now2 s.Load_1_wake s.g
    { s with Load_1_wake := r.1, g := r.2 }
  | .Load_2 now1 now2 =>
    let r := Load_2_Simulation_loop portTICK_PERIOD_MS now1 now2 s.Load_2_wake s.g
    { s with Load_2_wake := r.1, g := r.2 }

/-- A sequence of activations, oldest first. -/
def run (portTICK_PERIOD_MS : Nat) (s : System) (acts : List Activation) : System :=
  acts.foldl (step portTICK_PERIOD_MS) s

/-- The globals when `main` starts the scheduler: `misses` is a zero-initialised global
and `Queue1 = xQueueCreate(200, sizeof(uint8_t))`. -/
def main : Globals :=
  { misses := 0, Queue1 := xQueueCreate 200, serial := [], sendLog := [] }

/-- The application once every task has entered its function and stored the tick count
of that moment, `entry`, in its `xLastWakeTime`; the static `state` of both button tasks
is initialised to `RELEASED_STATE`. -/
def boot (entry : TaskId → Nat) : System :=
  { g := main, Button_1_state := RELEASED_STATE, Button_2_state := RELEASED_STATE,
    Button_1_wake := entry .Button_1, Button_2_wake := entry .Button_2,
    Transmitter_wake := entry .Transmitter, Receiver_wake := entry .Receiver,
    Load_1_wake := entry .Load_1, Load_2_wake := entry .Load_2 }

/-- How many activations of task `t` a sequence holds. -/
def activationsOf (t : TaskId) (acts : List Activation) : Nat :=
  (acts.filter (fun a => a.task = t)).length

/-- Consecutive passes of `Button_1_Monitor` that all sample the same level, one pass per
pair of tick samples. -/
def Button_1_samples (level : pinState_t) (ticks : List (Nat × Nat)) : List Activation :=
  ticks.map (fun p => Activation.Button_1 p.1 p.2 level)

/-- Consecutive passes of `Button_2_Monitor` that all sample the same level. -/
def Button_2_samples (level : pinState_t) (ticks : List (Nat × Nat)) : List Activation :=
  ticks.map (fun p => Activation.Button_2 p.1 p.2 level)

/-- Twenty-nine passes of `Periodic_Transmitter` with no pass of `Uart_Receiver` in
between fill the queue of 200 bytes: seven bytes are offered per pass. -/
def queueFilled : System :=
  run 1 (boot (fun _ => 0)) (List.replicate 29 (.Transmitter 0 0))

/-! ## Sequences of calls on the channel -/

/-- A zero-wait call on the channel. -/
inductive ChannelCall where
  | send (b : Nat)
  | receive
  deriving DecidableEq, Repr

/-- The channel after one call. -/
def Channel.call (q : Channel) : ChannelCall → Channel
  | .send b => (try_send q b).1
  | .receive => (try_receive q).1

/-- The channel after a sequence of calls, oldest first. -/
def Channel.calls (q : Channel) (cs : List ChannelCall) : Channel :=
  cs.foldl Channel.call q

/-- A producer that sends the bytes of a list one after the other with no receive in
between: the channel at the end and the result of each `try_send`. -/
def Channel.sendAll (q : Channel) : List Nat → Channel × List Bool
  | [] => (q, [])
  | b :: bs =>
    let r := try_send q b
    let rest := Channel.sendAll r.1 bs
    (rest.1, r.2 :: rest.2)

/-! ## Lemmas: machine arithmetic -/

theorem sub32_add32 (s d : Nat) : sub32 (add32 s d) s = d % UINT32_MOD := by
  simp only [sub32, add32, UINT32_MOD]
  omega

theorem add32_lt (a b : Nat) : add32 a b < UINT32_MOD := by
  simp only [add32, UINT32_MOD]
  omega

/-! ## Lemmas: the ring buffer -/

theorem Channel.contents_length (q : Channel) : q.contents.length = q.count := by
  simp [Channel.contents]

theorem xQueueCreate_WF (capacity : Nat) (h : 0 < capacity) : (xQueueCreate capacity).WF := by
  simp [xQueueCreate, Channel.WF, h]

theorem xQueueCreate_contents (capacity : Nat) : (xQueueCreate capacity).contents = [] := by
  simp [xQueueCreate, Channel.contents]

theorem try_send_full (q : Channel) (b : Nat) (h : ¬ q.count < q.capacity) :
    try_send q b = (q, false) := by
  simp [try_send, h]

theorem try_send_WF (q : Channel) (b : Nat) (h : q.WF) : (try_send q b).1.WF := by
  obtain ⟨hcap, hlen, hhead, htail, hcount⟩ := h
  unfold try_send
  split
  · refine ⟨hcap, ?_, hhead, ?_, ?_⟩
    · simpa using hlen
    · simp only [htail]
      rw [Nat.mod_add_mod, Nat.add_assoc]
    · simp only
      omega
  · exact ⟨hcap, hlen, hhead, htail, hcount⟩

theorem try_receive_WF (q : Channel) (h : q.WF) : (try_receive q).1.WF := by
  obtain ⟨hcap, hlen, hhead, htail, hcount⟩ := h
  unfold try_receive
  split
  · exact ⟨hcap, hlen, hhead, htail, hcount⟩
  · rename_i hne
    refine ⟨hcap, hlen, Nat.mod_lt _ hcap, ?_, ?_⟩
    · simp only [htail]
      rw [Nat.mod_add_mod]
      congr 1
      omega
    · simp only
      omega

/-- Two slots of the ring that lie fewer than `capacity` steps apart are different. -/
theorem ring_slot_ne (cap head i k : Nat) (hik : i < k) (hk : k < cap) :
    (head + k) % cap ≠ (head + i) % cap := by
  intro h
  have h1 : k ≡ i [MOD cap] := Nat.ModEq.add_left_cancel' head h
  have h2 : k % cap = i % cap := h1
  rw [Nat.mod_eq_of_lt hk, Nat.mod_eq_of_lt (by omega)] at h2
  omega

theorem try_send_contents (q : Channel) (b : Nat) (h : q.WF) (hroom : q.count < q.capacity) :
    (try_send q b).1.contents = q.contents ++ [b] ∧ (try_send q b).2 = true := by
  obtain ⟨hcap, hlen, hhead, htail, hcount⟩ := h
  simp only [try_send, hroom, if_true, Channel.contents, List.range_succ, List.map_append,
    List.map_cons, List.map_nil, and_true]
  congr 1
  · apply List.map_congr_left
    intro i hi
    rw [List.mem_range] at hi
    simp only [List.getD_eq_getElem?_getD]
    rw [List.getElem?_set_ne]
    rw [htail]
    exact ring_slot_ne _ _ _ _ hi hroom
  · simp only [List.getD_eq_getElem?_getD, htail]
    rw [List.getElem?_set_self]
    · rfl
    · rw [hlen]
      exact Nat.mod_lt _ hcap

theorem try_receive_empty (q : Channel) (h : q.count = 0) : try_receive q = (q, none) := by
  simp [try_receive, h]

theorem try_receive_nonempty (q : Channel) (hne : q.count ≠ 0) :
    try_receive q = ({ q with head := (q.head + 1) % q.capacity
                              count := q.count - 1 }, some (q.buf.getD q.head 0)) := by
  simp [try_receive, hne]

theorem try_receive_contents (q : Channel) (h : q.WF) (hne : q.count ≠ 0) :
    ∃ b, (try_receive q).2 = some b ∧ q.contents = b :: (try_receive q).1.contents := by
  obtain ⟨hcap, hlen, hhead, htail, hcount⟩ := h
  rw [try_receive_nonempty q hne]
  refine ⟨q.buf.getD q.head 0, rfl, ?_⟩
  obtain ⟨k, hk⟩ : ∃ k, q.count = k + 1 := ⟨q.count - 1, by omega⟩
  simp only [Channel.contents, hk, List.range_succ_eq_map,
    List.map_cons, List.map_map, Nat.add_zero, Nat.mod_eq_of_lt hhead, Nat.add_sub_cancel]
  congr 1
  apply List.map_congr_left
  intro i _
  simp only [Function.comp, Nat.succ_eq_add_one, Nat.mod_add_mod]
  congr 2
  omega

/-! ## Lemmas: sending a string -/

theorem sendString_misses (cs : List Nat) (g : Globals) :
    (sendString g cs).misses = g.misses := by
  induction cs generalizing g with
  | nil => rfl
  | cons c cs ih => simp only [sendString, ih, xQueueSend]

theorem sendString_serial (cs : List Nat) (g : Globals) :
    (sendString g cs).serial = g.serial := by
  induction cs generalizing g with
  | nil => rfl
  | cons c cs ih => simp only [sendString, ih, xQueueSend]

theorem sendString_sendLog (cs : List Nat) (g : Globals) :
    (sendString g cs).sendLog = g.sendLog ++ cs := by
  induction cs generalizing g with
  | nil => simp [sendString]
  | cons c cs ih => simp [sendString, ih, xQueueSend]

theorem sendString_WF (cs : List Nat) (g : Globals) (h : g.Queue1.WF) :
    (sendString g cs).Queue1.WF := by
  induction cs generalizing g with
  | nil => exact h
  | cons c cs ih => exact ih _ (try_send_WF _ _ h)

/-- With room for the whole string every byte is accepted, in order. -/
theorem sendString_contents (cs : List Nat) (g : Globals) (h : g.Queue1.WF)
    (hroom : g.Queue1.count + cs.length ≤ g.Queue1.capacity) :
    (sendString g cs).Queue1.contents = g.Queue1.contents ++ cs := by
  induction cs generalizing g with
  | nil => simp [sendString]
  | cons c cs ih =>
    simp only [List.length_cons] at hroom
    have hlt : g.Queue1.count < g.Queue1.capacity := by omega
    have hs := try_send_contents g.Queue1 c h hlt
    have hcount : (try_send g.Queue1 c).1.count = g.Queue1.count + 1 := by
      simp [try_send, hlt]
    have hcap : (try_send g.Queue1 c).1.capacity = g.Queue1.capacity := by
      simp [try_send, hlt]
    have := ih (xQueueSend g c).1 (try_send_WF _ _ h)
      (by simp only [xQueueSend, hcount, hcap]; omega)
    show (sendString (xQueueSend g c).1 cs).Queue1.contents = _
    rw [this]
    simp [xQueueSend, hs.1]

/-- On a full queue every byte of the string is dropped. -/
theorem sendString_full (cs : List Nat) (g : Globals)
    (hfull : ¬ g.Queue1.count < g.Queue1.capacity) :
    (sendString g cs).Queue1 = g.Queue1 := by
  induction cs generalizing g with
  | nil => rfl
  | cons c cs ih =>
    have h1 : (xQueueSend g c).1.Queue1 = g.Queue1 := by
      simp [xQueueSend, try_send_full _ _ hfull]
    simp only [sendString]
    rw [ih _ (by rw [h1]; exact hfull), h1]

/-! ## Lemmas: the drain loop of `Uart_Receiver` -/

theorem xQueueReceive_empty (g : Globals) (h : g.Queue1.count = 0) :
    xQueueReceive g = (g, none) := by
  simp [xQueueReceive, try_receive_empty _ h]

theorem xQueueReceive_nonempty (g : Globals) (h : g.Queue1.count ≠ 0) :
    xQueueReceive g = ({ g with Queue1 := (try_receive g.Queue1).1 },
      some (g.Queue1.buf.getD g.Queue1.head 0)) := by
  simp only [xQueueReceive, try_receive_nonempty _ h]

theorem Uart_Receiver_drain_empty (g : Globals) (h : g.Queue1.count = 0) :
    Uart_Receiver_drain g = g := by
  rw [Uart_Receiver_drain]
  split
  · rename_i heq
    rw [xQueueReceive_empty g h] at heq
    simp at heq
  · rename_i heq
    rw [xQueueReceive_empty g h] at heq
    simp only [Prod.mk.injEq, and_true] at heq
    exact heq.symm

theorem Uart_Receiver_drain_nonempty (g : Globals) (h : g.Queue1.count ≠ 0) :
    Uart_Receiver_drain g =
      Uart_Receiver_drain (xSerialPutChar { g with Queue1 := (try_receive g.Queue1).1 }
        (g.Queue1.buf.getD g.Queue1.head 0)) := by
  rw [Uart_Receiver_drain]
  split
  · rename_i heq
    rw [xQueueReceive_nonempty g h] at heq
    simp only [Prod.mk.injEq, Option.some.injEq] at heq
    rw [← heq.1, ← heq.2]
  · rename_i heq
    rw [xQueueReceive_nonempty g h] at heq
    simp at heq

theorem Uart_Receiver_drain_spec (g : Globals) (h : g.Queue1.WF) :
    (Uart_Receiver_drain g).serial = g.serial ++ g.Queue1.contents ∧
    (Uart_Receiver_drain g).Queue1.contents = [] ∧
    (Uart_Receiver_drain g).Queue1.count = 0 ∧
    (Uart_Receiver_drain g).Queue1.capacity = g.Queue1.capacity ∧
    (Uart_Receiver_drain g).Queue1.WF ∧
    (Uart_Receiver_drain g).misses = g.misses ∧
    (Uart_Receiver_drain g).sendLog = g.sendLog := by
  generalize hn : g.Queue1.count = n
  induction n generalizing g with
  | zero =>
    rw [Uart_Receiver_drain_empty g hn]
    have hc : g.Queue1.contents = [] := by simp [Channel.contents, hn]
    simp [hc, hn, h]
  | succ n ih =>
    have hne : g.Queue1.count ≠ 0 := by omega
    rw [Uart_Receiver_drain_nonempty g hne]
    obtain ⟨b, hb, hcont⟩ := try_receive_contents g.Queue1 h hne
    have hb2 : g.Queue1.buf.getD g.Queue1.head 0 = b := by
      rw [try_receive_nonempty _ hne] at hb
      exact Option.some.inj hb
    have hcnt : (try_receive g.Queue1).1.count = n := by
      rw [try_receive_nonempty _ hne]
      simp only
      omega
    have hcap : (try_receive g.Queue1).1.capacity = g.Queue1.capacity := by
      rw [try_receive_nonempty _ hne]
    have := ih (xSerialPutChar { g with Queue1 := (try_receive g.Queue1).1 }
        (g.Queue1.buf.getD g.Queue1.head 0)) (try_receive_WF _ h) hcnt
    obtain ⟨h1, h2, h3, h4, h5, h6, h7⟩ := this
    refine ⟨?_, h2, h3, ?_, h5, h6, h7⟩
    · rw [h1, hcont, hb2]
      simp [xSerialPutChar]
    · rw [h4]
      exact hcap

/-! ## Lemmas: the miss check and the task bodies -/

theorem missCheck_misses (P s e : Nat) (g : Globals) :
    (missCheck P s e g).misses = if sub32 e s > P then add32 g.misses 1 else g.misses := by
  unfold missCheck
  split <;> rfl

theorem missCheck_Queue1 (P s e : Nat) (g : Globals) : (missCheck P s e g).Queue1 = g.Queue1 := by
  unfold missCheck
  split <;> rfl

theorem missCheck_serial (P s e : Nat) (g : Globals) : (missCheck P s e g).serial = g.serial := by
  unfold missCheck
  split <;> rfl

theorem missCheck_sendLog (P s e : Nat) (g : Globals) :
    (missCheck P s e g).sendLog = g.sendLog := by
  unfold missCheck
  split <;> rfl

theorem Button_1_Monitor_body_misses (state : Nat) (level : pinState_t) (g : Globals) :
    (Button_1_Monitor_body state level g).2.misses = g.misses := by
  unfold Button_1_Monitor_body
  split
  · exact sendString_misses _ _
  · split
    · exact sendString_misses _ _
    · rfl

theorem Button_2_Monitor_body_misses (state : Nat) (level : pinState_t) (g : Globals) :
    (Button_2_Monitor_body state level g).2.misses = g.misses := by
  unfold Button_2_Monitor_body
  split
  · exact sendString_misses _ _
  · split
    · exact sendString_misses _ _
    · rfl

/-- The drain loop leaves `misses` alone, whatever the queue holds. -/
theorem Uart_Receiver_drain_misses (g : Globals) : (Uart_Receiver_drain g).misses = g.misses := by
  generalize hn : g.Queue1.count = n
  induction n generalizing g with
  | zero => rw [Uart_Receiver_drain_empty g hn]
  | succ n ih =>
    have hne : g.Queue1.count ≠ 0 := by omega
    rw [Uart_Receiver_drain_nonempty g hne, ih]
    · rfl
    · rw [try_receive_nonempty _ hne]
      simp only [xSerialPutChar]
      omega

/-- What one activation does to `misses`: the check of the task that runs, applied to the
value the body left untouched. -/
theorem step_misses (t : Nat) (s : System) (a : Activation) :
    (step t s a).g.misses =
      if sub32 a.end_time a.start_time > a.task.P then add32 s.g.misses 1 else s.g.misses := by
  cases a <;>
    simp only [step, Button_1_Monitor_loop, Button_2_Monitor_loop, Periodic_Transmitter_loop,
      Uart_Receiver_loop, Load_1_Simulation_loop, Load_2_Simulation_loop, missCheck_misses,
      Button_1_Monitor_body_misses, Button_2_Monitor_body_misses, sendString_misses,
      Uart_Receiver_drain_misses, Activation.end_time, Activation.start_time, Activation.task,
      TaskId.P]

/-- What one activation does to the `xLastWakeTime` variables. -/
theorem step_wake (t : Nat) (s : System) (a : Activation) (k : TaskId) :
    (step t s a).wake k = if k = a.task then add32 (s.wake k) (k.P / t) else s.wake k := by
  cases a <;> cases k <;>
    simp [step, Button_1_Monitor_loop, Button_2_Monitor_loop, Periodic_Transmitter_loop,
      Uart_Receiver_loop, Load_1_Simulation_loop, Load_2_Simulation_loop, System.wake,
      Activation.task, TaskId.P, vTaskDelayUntil]

theorem run_append (t : Nat) (s : System) (xs ys : List Activation) :
    run t s (xs ++ ys) = run t (run t s xs) ys := by
  simp [run, List.foldl_append]

theorem run_cons (t : Nat) (s : System) (a : Activation) (xs : List Activation) :
    run t s (a :: xs) = run t (step t s a) xs := rfl

theorem run_nil (t : Nat) (s : System) : run t s [] = s := rfl

theorem run_wake (t : Nat) (acts : List Activation) (s : System) (k : TaskId) :
    sub32 ((run t s acts).wake k) (s.wake k) = (activationsOf k acts * (k.P / t)) % UINT32_MOD := by
  induction acts using List.reverseRecOn with
  | nil =>
    simp only [run_nil, activationsOf, List.filter_nil, List.length_nil, Nat.zero_mul, sub32,
      UINT32_MOD]
    omega
  | append_singleton xs a ih =>
    rw [run_append, run_cons, run_nil, step_wake]
    have hcount : activationsOf k (xs ++ [a]) =
        activationsOf k xs + (if k = a.task then 1 else 0) := by
      simp only [activationsOf, List.filter_append, List.length_append, List.filter_cons,
        List.filter_nil]
      by_cases h : a.task = k
      · simp [h]
      · have h2 : ¬ k = a.task := fun e => h e.symm
        simp [h, h2]
    rw [hcount]
    by_cases h : k = a.task
    · simp only [h, if_true, Nat.add_mul, Nat.one_mul] at ih ⊢
      generalize (run t s xs).wake a.task = w at ih ⊢
      generalize activationsOf a.task xs * (a.task.P / t) = m at ih ⊢
      generalize a.task.P / t = p at ih ⊢
      simp only [sub32, add32, UINT32_MOD] at ih ⊢
      omega
    · simp only [h, if_false, Nat.add_zero]
      exact ih

theorem TaskId.P_div_lt (k : TaskId) (t : Nat) : k.P / t < UINT32_MOD := by
  have h1 : k.P / t ≤ k.P := Nat.div_le_self _ _
  have h2 : k.P ≤ 100 := by cases k <;> decide
  simp only [UINT32_MOD]
  omega

/-! ## Lemmas: the button monitors -/

theorem sendString_capacity (cs : List Nat) (g : Globals) :
    (sendString g cs).Queue1.capacity = g.Queue1.capacity := by
  induction cs generalizing g with
  | nil => rfl
  | cons c cs ih =>
    simp only [sendString, ih, xQueueSend, try_send]
    split <;> rfl

theorem Button_1_Monitor_loop_eq (t now1 now2 : Nat) (level : pinState_t)
    (state wake : Nat) (g : Globals) :
    Button_1_Monitor_loop t now1 now2 level state wake g =
      ((Button_1_Monitor_body state level g).1, add32 wake (BUTTON_1_MONITOR_P / t),
        missCheck BUTTON_1_MONITOR_P now1 now2 (Button_1_Monitor_body state level g).2) := rfl

theorem Button_2_Monitor_loop_eq (t now1 now2 : Nat) (level : pinState_t)
    (state wake : Nat) (g : Globals) :
    Button_2_Monitor_loop t now1 now2 level state wake g =
      ((Button_2_Monitor_body state level g).1, add32 wake (BUTTON_2_MONITOR_P / t),
        missCheck BUTTON_2_MONITOR_P now1 now2 (Button_2_Monitor_body state level g).2) := rfl

theorem Button_1_Monitor_body_press (g : Globals) :
    Button_1_Monitor_body RELEASED_STATE PIN_IS_HIGH g =
      (PRESSED_STATE, sendString g Btn1Pressed) := by
  simp [Button_1_Monitor_body]

theorem Button_1_Monitor_body_release (g : Globals) :
    Button_1_Monitor_body PRESSED_STATE PIN_IS_LOW g =
      (RELEASED_STATE, sendString g Btn1Released) := by
  simp [Button_1_Monitor_body, PRESSED_STATE, RELEASED_STATE]

theorem Button_2_Monitor_body_press (g : Globals) :
    Button_2_Monitor_body RELEASED_STATE PIN_IS_HIGH g =
      (PRESSED_STATE, sendString g Btn2Pressed) := by
  simp [Button_2_Monitor_body]

theorem Button_2_Monitor_body_release (g : Globals) :
    Button_2_Monitor_body PRESSED_STATE PIN_IS_LOW g =
      (RELEASED_STATE, sendString g Btn2Released) := by
  simp [Button_2_Monitor_body, PRESSED_STATE, RELEASED_STATE]

/-- A pass leaves the monitor alone when neither edge condition holds. -/
theorem Button_1_Monitor_body_idle (state : Nat) (level : pinState_t) (g : Globals)
    (h1 : ¬ (state = RELEASED_STATE ∧ level = PIN_IS_HIGH))
    (h2 : ¬ (state = PRESSED_STATE ∧ level = PIN_IS_LOW)) :
    Button_1_Monitor_body state level g = (state, g) := by
  simp only [Button_1_Monitor_body, if_neg h1, if_neg h2]

theorem Button_2_Monitor_body_idle (state : Nat) (level : pinState_t) (g : Globals)
    (h1 : ¬ (state = RELEASED_STATE ∧ level = PIN_IS_HIGH))
    (h2 : ¬ (state = PRESSED_STATE ∧ level = PIN_IS_LOW)) :
    Button_2_Monitor_body state level g = (state, g) := by
  simp only [Button_2_Monitor_body, if_neg h1, if_neg h2]

/-- After a pass with level `level` neither edge condition holds for that level. -/
theorem Button_1_Monitor_body_settled (state : Nat) (level : pinState_t) (g : Globals) :
    ¬ ((Button_1_Monitor_body state level g).1 = RELEASED_STATE ∧ level = PIN_IS_HIGH) ∧
    ¬ ((Button_1_Monitor_body state level g).1 = PRESSED_STATE ∧ level = PIN_IS_LOW) := by
  unfold Button_1_Monitor_body
  split
  · rename_i h
    simp [h.2, PRESSED_STATE, RELEASED_STATE]
  · split
    · rename_i h
      simp [h.2, PRESSED_STATE, RELEASED_STATE]
    · rename_i h1 h2
      exact ⟨h1, h2⟩

theorem Button_2_Monitor_body_settled (state : Nat) (level : pinState_t) (g : Globals) :
    ¬ ((Button_2_Monitor_body state level g).1 = RELEASED_STATE ∧ level = PIN_IS_HIGH) ∧
    ¬ ((Button_2_Monitor_body state level g).1 = PRESSED_STATE ∧ level = PIN_IS_LOW) := by
  unfold Button_2_Monitor_body
  split
  · rename_i h
    simp [h.2, PRESSED_STATE, RELEASED_STATE]
  · split
    · rename_i h
      simp [h.2, PRESSED_STATE, RELEASED_STATE]
    · rename_i h1 h2
      exact ⟨h1, h2⟩

/-- What a string sent to a well-formed queue with room leaves behind. -/
theorem sendString_room (cs : List Nat) (g : Globals) (h : g.Queue1.WF)
    (hroom : g.Queue1.count + cs.length ≤ g.Queue1.capacity) :
    (sendString g cs).Queue1.WF ∧
    (sendString g cs).Queue1.contents = g.Queue1.contents ++ cs ∧
    (sendString g cs).Queue1.count = g.Queue1.count + cs.length ∧
    (sendString g cs).Queue1.capacity = g.Queue1.capacity := by
  have hc := sendString_contents cs g h hroom
  refine ⟨sendString_WF cs g h, hc, ?_, sendString_capacity cs g⟩
  rw [← Channel.contents_length, hc, List.length_append, Channel.contents_length]

/-- Two strings sent in two passes, with the miss check of the first pass in between. -/
theorem sendString_twice (g : Globals) (P a b : Nat) (xs ys : List Nat) (h : g.Queue1.WF)
    (hroom : g.Queue1.count + xs.length + ys.length ≤ g.Queue1.capacity) :
    (sendString (missCheck P a b (sendString g xs)) ys).Queue1.contents =
      g.Queue1.contents ++ xs ++ ys ∧
    (sendString (missCheck P a b (sendString g xs)) ys).sendLog = g.sendLog ++ xs ++ ys := by
  obtain ⟨h1, h2, h3, h4⟩ := sendString_room xs g h (by omega)
  have hq := missCheck_Queue1 P a b (sendString g xs)
  have hc := sendString_contents ys (missCheck P a b (sendString g xs))
    (by rw [hq]; exact h1) (by rw [hq, h3, h4]; omega)
  rw [hc, hq, h2, sendString_sendLog, missCheck_sendLog, sendString_sendLog]
  exact ⟨rfl, rfl⟩

theorem step_Button_1 (t : Nat) (s : System) (now1 now2 : Nat) (level : pinState_t) :
    step t s (.Button_1 now1 now2 level) =
      { s with
        Button_1_state := (Button_1_Monitor_body s.Button_1_state level s.g).1
        Button_1_wake := add32 s.Button_1_wake (BUTTON_1_MONITOR_P / t)
        g := missCheck BUTTON_1_MONITOR_P now1 now2
          (Button_1_Monitor_body s.Button_1_state level s.g).2 } := rfl

theorem step_Button_2 (t : Nat) (s : System) (now1 now2 : Nat) (level : pinState_t) :
    step t s (.Button_2 now1 now2 level) =
      { s with
        Button_2_state := (Button_2_Monitor_body s.Button_2_state level s.g).1
        Button_2_wake := add32 s.Button_2_wake (BUTTON_2_MONITOR_P / t)
        g := missCheck BUTTON_2_MONITOR_P now1 now2
          (Button_2_Monitor_body s.Button_2_state level s.g).2 } := rfl

theorem main_Queue1_WF : main.Queue1.WF := xQueueCreate_WF 200 (by decide)

/-- Once neither edge condition holds for a level, further passes of `Button_1_Monitor`
with that level change neither the state, nor the queue, nor the record of sends. -/
theorem run_Button_1_samples_settled (t : Nat) (level : pinState_t) (ticks : List (Nat × Nat))
    (s : System)
    (h1 : ¬ (s.Button_1_state = RELEASED_STATE ∧ level = PIN_IS_HIGH))
    (h2 : ¬ (s.Button_1_state = PRESSED_STATE ∧ level = PIN_IS_LOW)) :
    (run t s (Button_1_samples level ticks)).Button_1_state = s.Button_1_state ∧
    (run t s (Button_1_samples level ticks)).g.sendLog = s.g.sendLog ∧
    (run t s (Button_1_samples level ticks)).g.Queue1 = s.g.Queue1 := by
  induction ticks generalizing s with
  | nil => exact ⟨rfl, rfl, rfl⟩
  | cons p ps ih =>
    have hb := Button_1_Monitor_body_idle s.Button_1_state level s.g h1 h2
    have hs : (step t s (.Button_1 p.1 p.2 level)).Button_1_state = s.Button_1_state := by
      rw [step_Button_1, hb]
    have hl : (step t s (.Button_1 p.1 p.2 level)).g.sendLog = s.g.sendLog := by
      rw [step_Button_1, hb]
      exact missCheck_sendLog _ _ _ _
    have hq : (step t s (.Button_1 p.1 p.2 level)).g.Queue1 = s.g.Queue1 := by
      rw [step_Button_1, hb]
      exact missCheck_Queue1 _ _ _ _
    have := ih (step t s (.Button_1 p.1 p.2 level)) (by rw [hs]; exact h1) (by rw [hs]; exact h2)
    simp only [Button_1_samples, List.map_cons, run_cons] at this ⊢
    rw [this.1, this.2.1, this.2.2]
    exact ⟨hs, hl, hq⟩

theorem run_Button_2_samples_settled (t : Nat) (level : pinState_t) (ticks : List (Nat × Nat))
    (s : System)
    (h1 : ¬ (s.Button_2_state = RELEASED_STATE ∧ level = PIN_IS_HIGH))
    (h2 : ¬ (s.Button_2_state = PRESSED_STATE ∧ level = PIN_IS_LOW)) :
    (run t s (Button_2_samples level ticks)).Button_2_state = s.Button_2_state ∧
    (run t s (Button_2_samples level ticks)).g.sendLog = s.g.sendLog ∧
    (run t s (Button_2_samples level ticks)).g.Queue1 = s.g.Queue1 := by
  induction ticks generalizing s with
  | nil => exact ⟨rfl, rfl, rfl⟩
  | cons p ps ih =>
    have hb := Button_2_Monitor_body_idle s.Button_2_state level s.g h1 h2
    have hs : (step t s (.Button_2 p.1 p.2 level)).Button_2_state = s.Button_2_state := by
      rw [step_Button_2, hb]
    have hl : (step t s (.Button_2 p.1 p.2 level)).g.sendLog = s.g.sendLog := by
      rw [step_Button_2, hb]
      exact missCheck_sendLog _ _ _ _
    have hq : (step t s (.Button_2 p.1 p.2 level)).g.Queue1 = s.g.Queue1 := by
      rw [step_Button_2, hb]
      exact missCheck_Queue1 _ _ _ _
    have := ih (step t s (.Button_2 p.1 p.2 level)) (by rw [hs]; exact h1) (by rw [hs]; exact h2)
    simp only [Button_2_samples, List.map_cons, run_cons] at this ⊢
    rw [this.1, this.2.1, this.2.2]
    exact ⟨hs, hl, hq⟩

/-- A run of HIGH samples followed by a run of LOW samples, seen by `Button_1_Monitor`
from state RELEASED: one pressed message, then one released message, and RELEASED again. -/
theorem run_Button_1_cycle (t : Nat) (s : System) (p q : Nat × Nat) (ps qs : List (Nat × Nat))
    (h : s.Button_1_state = RELEASED_STATE) :
    (run t s (Button_1_samples PIN_IS_HIGH (p :: ps) ++
      Button_1_samples PIN_IS_LOW (q :: qs))).Button_1_state = RELEASED_STATE ∧
    (run t s (Button_1_samples PIN_IS_HIGH (p :: ps) ++
      Button_1_samples PIN_IS_LOW (q :: qs))).g.sendLog
      = s.g.sendLog ++ Btn1Pressed ++ Btn1Released := by
  have hrun : run t s (Button_1_samples PIN_IS_HIGH (p :: ps) ++
      Button_1_samples PIN_IS_LOW (q :: qs)) =
      run t (step t (run t (step t s (.Button_1 p.1 p.2 PIN_IS_HIGH))
        (Button_1_samples PIN_IS_HIGH ps)) (.Button_1 q.1 q.2 PIN_IS_LOW))
        (Button_1_samples PIN_IS_LOW qs) := by
    simp only [Button_1_samples, List.map_cons, run_append, run_cons]
  rw [hrun]
  -- the first HIGH sample
  have e1 : (step t s (.Button_1 p.1 p.2 PIN_IS_HIGH)).Button_1_state = PRESSED_STATE := by
    rw [step_Button_1, h, Button_1_Monitor_body_press]
  have g1 : (step t s (.Button_1 p.1 p.2 PIN_IS_HIGH)).g.sendLog = s.g.sendLog ++ Btn1Pressed := by
    rw [step_Button_1, h, Button_1_Monitor_body_press]
    simp only [missCheck_sendLog, sendString_sendLog]
  -- the other HIGH samples
  have r1 := run_Button_1_samples_settled t PIN_IS_HIGH ps (step t s (.Button_1 p.1 p.2 PIN_IS_HIGH))
    (by rw [e1]; decide) (by rw [e1]; decide)
  rw [e1, g1] at r1
  generalize run t (step t s (.Button_1 p.1 p.2 PIN_IS_HIGH)) (Button_1_samples PIN_IS_HIGH ps)
    = s2 at r1 ⊢
  -- the first LOW sample
  have e2 : (step t s2 (.Button_1 q.1 q.2 PIN_IS_LOW)).Button_1_state = RELEASED_STATE := by
    rw [step_Button_1, r1.1, Button_1_Monitor_body_release]
  have g2 : (step t s2 (.Button_1 q.1 q.2 PIN_IS_LOW)).g.sendLog
      = s.g.sendLog ++ Btn1Pressed ++ Btn1Released := by
    rw [step_Button_1, r1.1, Button_1_Monitor_body_release]
    simp only [missCheck_sendLog, sendString_sendLog, r1.2.1]
  -- the other LOW samples
  have r2 := run_Button_1_samples_settled t PIN_IS_LOW qs (step t s2 (.Button_1 q.1 q.2 PIN_IS_LOW))
    (by rw [e2]; decide) (by rw [e2]; decide)
  rw [e2, g2] at r2
  exact ⟨r2.1, r2.2.1⟩

theorem run_Button_2_cycle (t : Nat) (s : System) (p q : Nat × Nat) (ps qs : List (Nat × Nat))
    (h : s.Button_2_state = RELEASED_STATE) :
    (run t s (Button_2_samples PIN_IS_HIGH (p :: ps) ++
      Button_2_samples PIN_IS_LOW (q :: qs))).Button_2_state = RELEASED_STATE ∧
    (run t s (Button_2_samples PIN_IS_HIGH (p :: ps) ++
      Button_2_samples PIN_IS_LOW (q :: qs))).g.sendLog
      = s.g.sendLog ++ Btn2Pressed ++ Btn2Released := by
  have hrun : run t s (Button_2_samples PIN_IS_HIGH (p :: ps) ++
      Button_2_samples PIN_IS_LOW (q :: qs)) =
      run t (step t (run t (step t s (.Button_2 p.1 p.2 PIN_IS_HIGH))
        (Button_2_samples PIN_IS_HIGH ps)) (.Button_2 q.1 q.2 PIN_IS_LOW))
        (Button_2_samples PIN_IS_LOW qs) := by
    simp only [Button_2_samples, List.map_cons, run_append, run_cons]
  rw [hrun]
  have e1 : (step t s (.Button_2 p.1 p.2 PIN_IS_HIGH)).Button_2_state = PRESSED_STATE := by
    rw [step_Button_2, h, Button_2_Monitor_body_press]
  have g1 : (step t s (.Button_2 p.1 p.2 PIN_IS_HIGH)).g.sendLog = s.g.sendLog ++ Btn2Pressed := by
    rw [step_Button_2, h, Button_2_Monitor_body_press]
    simp only [missCheck_sendLog, sendString_sendLog]
  have r1 := run_Button_2_samples_settled t PIN_IS_HIGH ps (step t s (.Button_2 p.1 p.2 PIN_IS_HIGH))
    (by rw [e1]; decide) (by rw [e1]; decide)
  rw [e1, g1] at r1
  generalize run t (step t s (.Button_2 p.1 p.2 PIN_IS_HIGH)) (Button_2_samples PIN_IS_HIGH ps)
    = s2 at r1 ⊢
  have e2 : (step t s2 (.Button_2 q.1 q.2 PIN_IS_LOW)).Button_2_state = RELEASED_STATE := by
    rw [step_Button_2, r1.1, Button_2_Monitor_body_release]
  have g2 : (step t s2 (.Button_2 q.1 q.2 PIN_IS_LOW)).g.sendLog
      = s.g.sendLog ++ Btn2Pressed ++ Btn2Released := by
    rw [step_Button_2, r1.1, Button_2_Monitor_body_release]
    simp only [missCheck_sendLog, sendString_sendLog, r1.2.1]
  have r2 := run_Button_2_samples_settled t PIN_IS_LOW qs (step t s2 (.Button_2 q.1 q.2 PIN_IS_LOW))
    (by rw [e2]; decide) (by rw [e2]; decide)
  rw [e2, g2] at r2
  exact ⟨r2.1, r2.2.1⟩

/-- One pass of `Button_1_Monitor` hands `xQueueSend` nothing, or the pressed string, or
the released string. -/
theorem step_Button_1_sendLog (t : Nat) (s : System) (now1 now2 : Nat) (level : pinState_t) :
    (step t s (.Button_1 now1 now2 level)).g.sendLog = s.g.sendLog ∨
    (step t s (.Button_1 now1 now2 level)).g.sendLog = s.g.sendLog ++ Btn1Pressed ∨
    (step t s (.Button_1 now1 now2 level)).g.sendLog = s.g.sendLog ++ Btn1Released := by
  rw [step_Button_1]
  simp only [missCheck_sendLog]
  unfold Button_1_Monitor_body
  split
  · exact Or.inr (Or.inl (sendString_sendLog _ _))
  · split
    · exact Or.inr (Or.inr (sendString_sendLog _ _))
    · exact Or.inl rfl

theorem step_Button_2_sendLog (t : Nat) (s : System) (now1 now2 : Nat) (level : pinState_t) :
    (step t s (.Button_2 now1 now2 level)).g.sendLog = s.g.sendLog ∨
    (step t s (.Button_2 now1 now2 level)).g.sendLog = s.g.sendLog ++ Btn2Pressed ∨
    (step t s (.Button_2 now1 now2 level)).g.sendLog = s.g.sendLog ++ Btn2Released := by
  rw [step_Button_2]
  simp only [missCheck_sendLog]
  unfold Button_2_Monitor_body
  split
  · exact Or.inr (Or.inl (sendString_sendLog _ _))
  · split
    · exact Or.inr (Or.inr (sendString_sendLog _ _))
    · exact Or.inl rfl

theorem step_Receiver (t : Nat) (s : System) (now1 now2 : Nat) :
    step t s (.Receiver now1 now2) =
      { s with
        Receiver_wake := add32 s.Receiver_wake (UART_RECEIVER_P / t)
        g := missCheck UART_RECEIVER_P now1 now2 (Uart_Receiver_drain s.g) } := rfl

/-- A press dropped by a full queue, a pass of `Uart_Receiver`, then a release: what
`Button_1_Monitor` leaves in the queue. -/
theorem Button_1_press_dropped (t : Nat) (s : System) (a1 b1 a2 b2 a3 b3 : Nat)
    (hst : s.Button_1_state = RELEASED_STATE)
    (hfull : ¬ s.g.Queue1.count < s.g.Queue1.capacity) (hwf : s.g.Queue1.WF)
    (hcap : 15 ≤ s.g.Queue1.capacity) :
    (step t s (.Button_1 a1 b1 PIN_IS_HIGH)).Button_1_state = PRESSED_STATE ∧
    (step t s (.Button_1 a1 b1 PIN_IS_HIGH)).g.Queue1 = s.g.Queue1 ∧
    (step t s (.Button_1 a1 b1 PIN_IS_HIGH)).g.sendLog = s.g.sendLog ++ Btn1Pressed ∧
    (run t s [.Button_1 a1 b1 PIN_IS_HIGH, .Receiver a2 b2,
      .Button_1 a3 b3 PIN_IS_LOW]).g.Queue1.contents = Btn1Released ∧
    (run t s [.Button_1 a1 b1 PIN_IS_HIGH, .Receiver a2 b2,
      .Button_1 a3 b3 PIN_IS_LOW]).g.serial = s.g.serial ++ s.g.Queue1.contents ∧
    (run t s [.Button_1 a1 b1 PIN_IS_HIGH, .Receiver a2 b2,
      .Button_1 a3 b3 PIN_IS_LOW]).Button_1_state = RELEASED_STATE := by
  have e1 : (step t s (.Button_1 a1 b1 PIN_IS_HIGH)).Button_1_state = PRESSED_STATE := by
    rw [step_Button_1, hst, Button_1_Monitor_body_press]
  have q1 : (step t s (.Button_1 a1 b1 PIN_IS_HIGH)).g.Queue1 = s.g.Queue1 := by
    rw [step_Button_1, hst, Button_1_Monitor_body_press]
    simp only [missCheck_Queue1]
    exact sendString_full _ _ hfull
  have l1 : (step t s (.Button_1 a1 b1 PIN_IS_HIGH)).g.sendLog = s.g.sendLog ++ Btn1Pressed := by
    rw [step_Button_1, hst, Button_1_Monitor_body_press]
    simp only [missCheck_sendLog, sendString_sendLog]
  have o1 : (step t s (.Button_1 a1 b1 PIN_IS_HIGH)).g.serial = s.g.serial := by
    rw [step_Button_1, hst, Button_1_Monitor_body_press]
    simp only [missCheck_serial, sendString_serial]
  refine ⟨e1, q1, l1, ?_⟩
  simp only [run, List.foldl]
  generalize step t s (.Button_1 a1 b1 PIN_IS_HIGH) = s1 at e1 q1 l1 o1 ⊢
  obtain ⟨d1, d2, d3, d4, d5, -⟩ := Uart_Receiver_drain_spec s1.g (by rw [q1]; exact hwf)
  have len : Btn1Released.length = 15 := by decide
  have hroom : (missCheck UART_RECEIVER_P a2 b2 (Uart_Receiver_drain s1.g)).Queue1.count +
      Btn1Released.length ≤
      (missCheck UART_RECEIVER_P a2 b2 (Uart_Receiver_drain s1.g)).Queue1.capacity := by
    rw [missCheck_Queue1, d3, d4, q1, len]
    omega
  have hc := sendString_contents Btn1Released
    (missCheck UART_RECEIVER_P a2 b2 (Uart_Receiver_drain s1.g))
    (by rw [missCheck_Queue1]; exact d5) hroom
  rw [missCheck_Queue1, d2, List.nil_append] at hc
  simp only [step_Receiver, step_Button_1, e1, Button_1_Monitor_body_release, missCheck_Queue1,
    missCheck_serial, sendString_serial, hc, d1, o1, q1, and_self]

theorem Button_2_press_dropped (t : Nat) (s : System) (a1 b1 a2 b2 a3 b3 : Nat)
    (hst : s.Button_2_state = RELEASED_STATE)
    (hfull : ¬ s.g.Queue1.count < s.g.Queue1.capacity) (hwf : s.g.Queue1.WF)
    (hcap : 15 ≤ s.g.Queue1.capacity) :
    (step t s (.Button_2 a1 b1 PIN_IS_HIGH)).Button_2_state = PRESSED_STATE ∧
    (step t s (.Button_2 a1 b1 PIN_IS_HIGH)).g.Queue1 = s.g.Queue1 ∧
    (step t s (.Button_2 a1 b1 PIN_IS_HIGH)).g.sendLog = s.g.sendLog ++ Btn2Pressed ∧
    (run t s [.Button_2 a1 b1 PIN_IS_HIGH, .Receiver a2 b2,
      .Button_2 a3 b3 PIN_IS_LOW]).g.Queue1.contents = Btn2Released ∧
    (run t s [.Button_2 a1 b1 PIN_IS_HIGH, .Receiver a2 b2,
      .Button_2 a3 b3 PIN_IS_LOW]).g.serial = s.g.serial ++ s.g.Queue1.contents ∧
    (run t s [.Button_2 a1 b1 PIN_IS_HIGH, .Receiver a2 b2,
      .Button_2 a3 b3 PIN_IS_LOW]).Button_2_state = RELEASED_STATE := by
  have e1 : (step t s (.Button_2 a1 b1 PIN_IS_HIGH)).Button_2_state = PRESSED_STATE := by
    rw [step_Button_2, hst, Button_2_Monitor_body_press]
  have q1 : (step t s (.Button_2 a1 b1 PIN_IS_HIGH)).g.Queue1 = s.g.Queue1 := by
    rw [step_Button_2, hst, Button_2_Monitor_body_press]
    simp only [missCheck_Queue1]
    exact sendString_full _ _ hfull
  have l1 : (step t s (.Button_2 a1 b1 PIN_IS_HIGH)).g.sendLog = s.g.sendLog ++ Btn2Pressed := by
    rw [step_Button_2, hst, Button_2_Monitor_body_press]
    simp only [missCheck_sendLog, sendString_sendLog]
  have o1 : (step t s (.Button_2 a1 b1 PIN_IS_HIGH)).g.serial = s.g.serial := by
    rw [step_Button_2, hst, Button_2_Monitor_body_press]
    simp only [missCheck_serial, sendString_serial]
  refine ⟨e1, q1, l1, ?_⟩
  simp only [run, List.foldl]
  generalize step t s (.Button_2 a1 b1 PIN_IS_HIGH) = s1 at e1 q1 l1 o1 ⊢
  obtain ⟨d1, d2, d3, d4, d5, -⟩ := Uart_Receiver_drain_spec s1.g (by rw [q1]; exact hwf)
  have len : Btn2Released.length = 14 := by decide
  have hroom : (missCheck UART_RECEIVER_P a2 b2 (Uart_Receiver_drain s1.g)).Queue1.count +
      Btn2Released.length ≤
      (missCheck UART_RECEIVER_P a2 b2 (Uart_Receiver_drain s1.g)).Queue1.capacity := by
    rw [missCheck_Queue1, d3, d4, q1, len]
    omega
  have hc := sendString_contents Btn2Released
    (missCheck UART_RECEIVER_P a2 b2 (Uart_Receiver_drain s1.g))
    (by rw [missCheck_Queue1]; exact d5) hroom
  rw [missCheck_Queue1, d2, List.nil_append] at hc
  simp only [step_Receiver, step_Button_2, e1, Button_2_Monitor_body_release, missCheck_Queue1,
    missCheck_serial, sendString_serial, hc, d1, o1, q1, and_self]

set_option maxRecDepth 100000 in
theorem queueFilled_full :
    queueFilled.Button_1_state = RELEASED_STATE ∧ queueFilled.Button_2_state = RELEASED_STATE ∧
    ¬ queueFilled.g.Queue1.count < queueFilled.g.Queue1.capacity ∧
    queueFilled.g.Queue1.WF ∧ 15 ≤ queueFilled.g.Queue1.capacity := by
  decide

/-! ## The claims -/

/-- C1: for every tick length `t`, every state of the application and every activation of
any of the six tasks, whatever its two tick samples (hence whatever the duration of its
body), the re-arm target written to the task's `xLastWakeTime` is the previous target plus
the task's period in ticks (`X_P / portTICK_PERIOD_MS`, which is `X_P` at a tick of 1 ms),
in `TickType_t` arithmetic, the difference of the two targets is that period, and the
targets of the other tasks do not move; along every run from start-up the target of a task
is its entry tick plus its number of activations times its period. With
`Periodic_Transmitter`, a 1 ms tick and a body of 120 ticks started at the previous
target, the next target is the previous one plus 100, a miss is counted and the end tick is
20 ticks past the new target. -/
theorem C1_rearm_adds_period (t : Nat) (s : System) (a : Activation) :
    (step t s a).wake a.task = add32 (s.wake a.task) (a.task.P / t) ∧
    sub32 ((step t s a).wake a.task) (s.wake a.task) = a.task.P / t ∧
    (∀ k, k ≠ a.task → (step t s a).wake k = s.wake k) ∧
    (∀ (entry : TaskId → Nat) (acts : List Activation) (k : TaskId),
      (run t (boot entry) []).wake k = entry k ∧
      sub32 ((run t (boot entry) acts).wake k) (entry k) =
        (activationsOf k acts * (k.P / t)) % UINT32_MOD) ∧
    (let r := s.Transmitter_wake
     let s1 := step 1 s (.Transmitter r (r + 120))
     s1.Transmitter_wake = add32 r 100 ∧ sub32 s1.Transmitter_wake r = 100 ∧
     s1.g.misses = add32 s.g.misses 1 ∧ sub32 (r + 120) s1.Transmitter_wake = 20) := by
  refine ⟨?_, ?_, ?_, ?_, ?_⟩
  · rw [step_wake]
    simp
  · rw [step_wake]
    simp only [if_true, sub32_add32]
    exact Nat.mod_eq_of_lt (TaskId.P_div_lt _ _)
  · intro k hk
    rw [step_wake]
    simp [hk]
  · intro entry acts k
    refine ⟨by cases k <;> rfl, ?_⟩
    have h := run_wake t acts (boot entry) k
    have hb : (boot entry).wake k = entry k := by cases k <;> rfl
    rw [hb] at h
    exact h
  · have hw := step_wake 1 s (.Transmitter s.Transmitter_wake (s.Transmitter_wake + 120))
      .Transmitter
    have hm := step_misses 1 s (.Transmitter s.Transmitter_wake (s.Transmitter_wake + 120))
    simp only [System.wake, Activation.task, if_true, TaskId.P, PERIODIC_TRANSMITTER_P,
      Nat.div_one] at hw
    simp only [Activation.task, Activation.end_time, Activation.start_time, TaskId.P,
      PERIODIC_TRANSMITTER_P] at hm
    have hd : sub32 (s.Transmitter_wake + 120) s.Transmitter_wake = 120 := by
      simp only [sub32, UINT32_MOD]
      omega
    rw [if_pos (by rw [hd]; decide)] at hm
    dsimp only
    rw [hw, hm]
    refine ⟨rfl, ?_, rfl, ?_⟩
    · simp only [sub32, add32, UINT32_MOD]
      omega
    · simp only [sub32, add32, UINT32_MOD]
      omega

/-- C2: for every activation of each of the six tasks, with start tick `s` and end tick
`e` and measured duration `d = e - s` (`uint32_t` subtraction), the counter `misses` after
the activation is its value before plus 1 (the `uint32_t` increment `misses++`) if `d > P`
and its value before if `d <= P`, where `P` is 50, 50, 100, 20, 10 and 100 for the six
tasks in the order of `main.c`; no activation changes it in any other way. -/
theorem C2_miss_iff_duration_exceeds_P (t : Nat) (s : System) (a : Activation) :
    (sub32 a.end_time a.start_time > a.task.P → (step t s a).g.misses = add32 s.g.misses 1) ∧
    (sub32 a.end_time a.start_time ≤ a.task.P → (step t s a).g.misses = s.g.misses) ∧
    ((step t s a).g.misses = s.g.misses ∨ (step t s a).g.misses = add32 s.g.misses 1) ∧
    add32 s.g.misses 1 = (s.g.misses + 1) % 4294967296 ∧
    TaskId.P .Button_1 = 50 ∧ TaskId.P .Button_2 = 50 ∧ TaskId.P .Transmitter = 100 ∧
    TaskId.P .Receiver = 20 ∧ TaskId.P .Load_1 = 10 ∧ TaskId.P .Load_2 = 100 := by
  refine ⟨?_, ?_, ?_, rfl, rfl, rfl, rfl, rfl, rfl, rfl⟩
  · intro h
    rw [step_misses, if_pos h]
  · intro h
    rw [step_misses, if_neg (by omega)]
  · rw [step_misses]
    split
    · exact Or.inr rfl
    · exact Or.inl rfl

/-- C9: with a 32-bit tick counter, for every start tick `s` and every true elapsed time
`d` below `2^32`, an activation whose first tick sample is `s` and whose second is
`(s + d) mod 2^32` measures `end_time - start_time = d`, and it counts a miss exactly
when `d > P`, whether or not the counter wrapped between the two samples. -/
theorem C9_duration_exact_across_wrap (t : Nat) (sys : System) (a : Activation) (d : Nat)
    (hs : a.start_time < UINT32_MOD) (hd : d < UINT32_MOD)
    (he : a.end_time = (a.start_time + d) % UINT32_MOD) :
    sub32 a.end_time a.start_time = d ∧
    (step t sys a).g.misses = if d > a.task.P then add32 sys.g.misses 1 else sys.g.misses := by
  have h : sub32 a.end_time a.start_time = d := by
    rw [he]
    simp only [sub32, UINT32_MOD] at hs hd ⊢
    omega
  refine ⟨h, ?_⟩
  rw [step_misses, h]

/-- C9 at a wrapping activation of `Load_1_Simulation`: start tick `2^32 - 6`, eleven
ticks of work, end tick 5. -/
theorem C9_duration_exact_across_wrap_witness :
    sub32 (Activation.Load_1 4294967290 5).end_time (Activation.Load_1 4294967290 5).start_time
      = 11 ∧
    (step 1 (boot (fun _ => 0)) (.Load_1 4294967290 5)).g.misses =
      if 11 > (Activation.Load_1 4294967290 5).task.P then add32 (boot (fun _ => 0)).g.misses 1
      else (boot (fun _ => 0)).g.misses :=
  C9_duration_exact_across_wrap 1 (boot (fun _ => 0)) (.Load_1 4294967290 5) 11
    (by decide) (by decide) (by decide)

/-- C7 fails at `portTICK_PERIOD_MS = 2`: the increment each task passes to
`vTaskDelayUntil` is `X_P / 2` ticks (25, 25, 50, 10, 5, 50) while the miss check still
compares against `X_P` (50, 50, 100, 20, 10, 100), so an activation of `Button_1_Monitor`
that lasts 30 ticks, longer than its period of 25 ticks, is not counted. -/
theorem C7_threshold_differs_from_period_at_2ms :
    (∀ s a, (step 2 s a).wake a.task = add32 (s.wake a.task) (a.task.P / 2)) ∧
    (∀ k : TaskId, k.P / 2 ≠ k.P) ∧
    TaskId.P .Button_1 / 2 = 25 ∧
    (step 2 (boot (fun _ => 0)) (.Button_1 0 30 PIN_IS_LOW)).Button_1_wake = 25 ∧
    (step 2 (boot (fun _ => 0)) (.Button_1 0 30 PIN_IS_LOW)).g.misses = 0 := by
  refine ⟨?_, ?_, by decide, by decide, by decide⟩
  · intro s a
    rw [step_wake]
    simp
  · intro k
    cases k <;> decide

/-- Overrunning activations of `Load_1_Simulation` (eleven ticks each) raise `misses` by
one each, modulo `2^32`. -/
theorem run_overruns_misses (t k : Nat) (s : System) (h : s.g.misses < UINT32_MOD) :
    (run t s (List.replicate k (.Load_1 0 11))).g.misses = (s.g.misses + k) % UINT32_MOD := by
  induction k generalizing s with
  | zero =>
    rw [List.replicate_zero, run_nil, Nat.add_zero, Nat.mod_eq_of_lt h]
  | succ k ih =>
    have hd : sub32 (Activation.Load_1 0 11).end_time (Activation.Load_1 0 11).start_time
        > (Activation.Load_1 0 11).task.P := by decide
    have hm : (step t s (.Load_1 0 11)).g.misses = add32 s.g.misses 1 := by
      rw [step_misses, if_pos hd]
    rw [List.replicate_succ, run_cons, ih _ (by rw [hm]; exact add32_lt _ _), hm]
    simp only [add32, UINT32_MOD]
    omega

/-- C8 as stated fails: `misses` is a `uint32_t`. After `2^32 - 1` overrunning activations
of `Load_1_Simulation` from start-up the counter holds `2^32 - 1`, and one more overrunning
activation wraps it to 0, which is below its value before the activation. -/
theorem C8_misses_wraps_after_max :
    (run 1 (boot (fun _ => 0)) (List.replicate 4294967295 (.Load_1 0 11))).g.misses
      = 4294967295 ∧
    (step 1 (run 1 (boot (fun _ => 0)) (List.replicate 4294967295 (.Load_1 0 11)))
      (.Load_1 0 11)).g.misses = 0 ∧
    ¬ ((run 1 (boot (fun _ => 0)) (List.replicate 4294967295 (.Load_1 0 11))).g.misses ≤
      (step 1 (run 1 (boot (fun _ => 0)) (List.replicate 4294967295 (.Load_1 0 11)))
        (.Load_1 0 11)).g.misses) := by
  have hb : (boot (fun _ => 0)).g.misses < UINT32_MOD := by decide
  have h0 : (boot (fun _ => 0)).g.misses = 0 := rfl
  have h1 := run_overruns_misses 1 4294967295 (boot (fun _ => 0)) hb
  rw [h0] at h1
  have h1 : (run 1 (boot (fun _ => 0)) (List.replicate 4294967295 (.Load_1 0 11))).g.misses
      = 4294967295 := by
    rw [h1]
    simp only [UINT32_MOD]
  have hd : sub32 (Activation.Load_1 0 11).end_time (Activation.Load_1 0 11).start_time
      > (Activation.Load_1 0 11).task.P := by decide
  have h2 : (step 1 (run 1 (boot (fun _ => 0)) (List.replicate 4294967295 (.Load_1 0 11)))
      (.Load_1 0 11)).g.misses = 0 := by
    rw [step_misses, if_pos hd, h1]
    simp only [add32, UINT32_MOD]
  refine ⟨h1, h2, ?_⟩
  rw [h1, h2]
  omega

/-- C8, amended: for every state of the application in which `misses` is below
`2^32 - 1`, the largest `uint32_t`, and every activation of any of the six tasks, the
counter after the activation is its value before or its value before plus 1, hence not
below its value before; no activation resets or lowers it. -/
theorem C8_misses_monotone_below_max (t : Nat) (s : System) (a : Activation)
    (h : s.g.misses < 4294967295) :
    s.g.misses ≤ (step t s a).g.misses ∧
    ((step t s a).g.misses = s.g.misses ∨ (step t s a).g.misses = s.g.misses + 1) := by
  have hadd : add32 s.g.misses 1 = s.g.misses + 1 := by
    simp only [add32, UINT32_MOD]
    omega
  rw [step_misses, hadd]
  split
  · exact ⟨by omega, Or.inr rfl⟩
  · exact ⟨Nat.le_refl _, Or.inl rfl⟩

/-- C8, amended, at the first overrunning activation of `Load_1_Simulation` after
start-up. -/
theorem C8_misses_monotone_below_max_witness :
    (boot (fun _ => 0)).g.misses ≤ (step 1 (boot (fun _ => 0)) (.Load_1 0 11)).g.misses ∧
    ((step 1 (boot (fun _ => 0)) (.Load_1 0 11)).g.misses = (boot (fun _ => 0)).g.misses ∨
     (step 1 (boot (fun _ => 0)) (.Load_1 0 11)).g.misses
       = (boot (fun _ => 0)).g.misses + 1) :=
  C8_misses_monotone_below_max 1 (boot (fun _ => 0)) (.Load_1 0 11) (by decide)

/-- Every channel reached from `xQueueCreate capacity` keeps its capacity, holds at most
that many bytes and, when the capacity is positive, is a well-formed ring. -/
theorem Channel.calls_invariant (capacity : Nat) (cs : List ChannelCall) (q : Channel)
    (h : q.capacity = capacity ∧ q.count ≤ q.capacity ∧ (0 < capacity → q.WF)) :
    (q.calls cs).capacity = capacity ∧ (q.calls cs).count ≤ (q.calls cs).capacity ∧
      (0 < capacity → (q.calls cs).WF) := by
  induction cs generalizing q with
  | nil => exact h
  | cons c cs ih =>
    apply ih
    obtain ⟨h1, h2, h3⟩ := h
    cases c with
    | send b =>
      refine ⟨?_, ?_, fun hc => try_send_WF _ _ (h3 hc)⟩
      · simp only [Channel.call, try_send]
        split <;> exact h1
      · simp only [Channel.call, try_send]
        split
        · simp only
          omega
        · exact h2
    | receive =>
      refine ⟨?_, ?_, fun hc => try_receive_WF _ (h3 hc)⟩
      · simp only [Channel.call, try_receive]
        split <;> exact h1
      · simp only [Channel.call, try_receive]
        split
        · exact h2
        · simp only
          omega

/-- C5: for every capacity and every sequence of `try_send` / `try_receive` calls on the
channel created with that capacity, the number of stored bytes (the count, which is the
length of the contents) is at most the capacity; on the channel so reached a `try_send`
returns false and leaves the channel unchanged when it is full, and returns true and
appends the byte to the contents when it is not. On an empty channel of capacity 4, sending
A, B, C, D, E returns true, true, true, true, false and leaves count 4 and contents
A, B, C, D. -/
theorem C5_channel_count_bounded (capacity : Nat) (cs : List ChannelCall) (b : Nat) :
    ((xQueueCreate capacity).calls cs).count ≤ capacity ∧
    ((xQueueCreate capacity).calls cs).contents.length = ((xQueueCreate capacity).calls cs).count ∧
    (¬ ((xQueueCreate capacity).calls cs).count < capacity →
      try_send ((xQueueCreate capacity).calls cs) b = ((xQueueCreate capacity).calls cs, false)) ∧
    (((xQueueCreate capacity).calls cs).count < capacity →
      (try_send ((xQueueCreate capacity).calls cs) b).2 = true ∧
      (try_send ((xQueueCreate capacity).calls cs) b).1.contents =
        ((xQueueCreate capacity).calls cs).contents ++ [b] ∧
      (try_send ((xQueueCreate capacity).calls cs) b).1.count =
        ((xQueueCreate capacity).calls cs).count + 1) ∧
    ((xQueueCreate 4).sendAll [65, 66, 67, 68, 69]).2 = [true, true, true, true, false] ∧
    ((xQueueCreate 4).sendAll [65, 66, 67, 68, 69]).1.count = 4 ∧
    ((xQueueCreate 4).sendAll [65, 66, 67, 68, 69]).1.contents = [65, 66, 67, 68] := by
  have h0 : (xQueueCreate capacity).capacity = capacity ∧
      (xQueueCreate capacity).count ≤ (xQueueCreate capacity).capacity ∧
      (0 < capacity → (xQueueCreate capacity).WF) :=
    ⟨rfl, Nat.zero_le _, xQueueCreate_WF capacity⟩
  obtain ⟨hcap, hcount, hwf⟩ := Channel.calls_invariant capacity cs _ h0
  generalize (xQueueCreate capacity).calls cs = q at hcap hcount hwf ⊢
  refine ⟨by omega, Channel.contents_length q, ?_, ?_, by decide, by decide, by decide⟩
  · intro hfull
    exact try_send_full q b (by omega)
  · intro hroom
    have hroom2 : q.count < q.capacity := by omega
    have hs := try_send_contents q b (hwf (by omega)) hroom2
    refine ⟨hs.2, hs.1, ?_⟩
    simp [try_send, hroom2]

/-- C6: for every well-formed channel content `b1, ..., bk` and whatever the tick samples,
one pass of `Uart_Receiver` (a total function: the drain loop terminates) appends exactly
`b1, ..., bk`, in that order, to the bytes handed to `xSerialPutChar` and leaves the
channel empty; and the order is the order of sending: if the bytes `bs` are first sent
to a channel with room for them, the pass outputs the old contents followed by `bs`. -/
theorem C6_receiver_drains_in_order (t now1 now2 wake : Nat) (g : Globals)
    (h : g.Queue1.WF) :
    (Uart_Receiver_loop t now1 now2 wake g).2.serial = g.serial ++ g.Queue1.contents ∧
    (Uart_Receiver_loop t now1 now2 wake g).2.Queue1.contents = [] ∧
    (Uart_Receiver_loop t now1 now2 wake g).2.Queue1.count = 0 ∧
    (∀ bs : List Nat, g.Queue1.count + bs.length ≤ g.Queue1.capacity →
      (Uart_Receiver_loop t now1 now2 wake (sendString g bs)).2.serial =
        g.serial ++ (g.Queue1.contents ++ bs)) := by
  obtain ⟨h1, h2, h3, -⟩ := Uart_Receiver_drain_spec g h
  simp only [Uart_Receiver_loop, missCheck_serial, missCheck_Queue1]
  refine ⟨h1, h2, h3, ?_⟩
  intro bs hroom
  obtain ⟨k1, -⟩ := Uart_Receiver_drain_spec (sendString g bs) (sendString_WF bs g h)
  rw [k1, sendString_serial, sendString_contents bs g h hroom]

/-- C6 at the channel that holds the greeting of `Periodic_Transmitter`. -/
theorem C6_receiver_drains_in_order_witness :
    (Uart_Receiver_loop 1 0 0 0 (sendString main HelloCmd)).2.serial =
      (sendString main HelloCmd).serial ++ (sendString main HelloCmd).Queue1.contents ∧
    (Uart_Receiver_loop 1 0 0 0 (sendString main HelloCmd)).2.Queue1.contents = [] ∧
    (Uart_Receiver_loop 1 0 0 0 (sendString main HelloCmd)).2.Queue1.count = 0 ∧
    (∀ bs : List Nat, (sendString main HelloCmd).Queue1.count + bs.length
        ≤ (sendString main HelloCmd).Queue1.capacity →
      (Uart_Receiver_loop 1 0 0 0 (sendString (sendString main HelloCmd) bs)).2.serial =
        (sendString main HelloCmd).serial ++ ((sendString main HelloCmd).Queue1.contents ++ bs)) :=
  C6_receiver_drains_in_order 1 0 0 0 (sendString main HelloCmd)
    (sendString_WF HelloCmd main (xQueueCreate_WF 200 (by decide)))

/-- C3: for every well-formed channel with room for 15 more bytes (in particular the
empty channel of capacity 200) and whatever the tick samples, a pass of `Button_1_Monitor`
that samples HIGH in state RELEASED hands the bytes of `Btn1Pressed` to `xQueueSend` in
string order, which appends them to the channel, and moves to PRESSED; a pass that samples
LOW in state PRESSED does the same with `Btn1Released` and moves to RELEASED; likewise
`Button_2_Monitor` with `Btn2Pressed` and `Btn2Released`. From start-up (state RELEASED,
empty channel of capacity 200) the three consecutive samples LOW, HIGH, LOW leave the
channel holding exactly the pressed string followed by the released string. -/
theorem C3_edges_enqueue_messages (t now1 now2 wake : Nat) (g : Globals) (hwf : g.Queue1.WF)
    (hroom : g.Queue1.count + 15 ≤ g.Queue1.capacity) :
    ((Button_1_Monitor_loop t now1 now2 PIN_IS_HIGH RELEASED_STATE wake g).1 = PRESSED_STATE ∧
      (Button_1_Monitor_loop t now1 now2 PIN_IS_HIGH RELEASED_STATE wake g).2.2.sendLog
        = g.sendLog ++ Btn1Pressed ∧
      (Button_1_Monitor_loop t now1 now2 PIN_IS_HIGH RELEASED_STATE wake g).2.2.Queue1.contents
        = g.Queue1.contents ++ Btn1Pressed) ∧
    ((Button_1_Monitor_loop t now1 now2 PIN_IS_LOW PRESSED_STATE wake g).1 = RELEASED_STATE ∧
      (Button_1_Monitor_loop t now1 now2 PIN_IS_LOW PRESSED_STATE wake g).2.2.sendLog
        = g.sendLog ++ Btn1Released ∧
      (Button_1_Monitor_loop t now1 now2 PIN_IS_LOW PRESSED_STATE wake g).2.2.Queue1.contents
        = g.Queue1.contents ++ Btn1Released) ∧
    ((Button_2_Monitor_loop t now1 now2 PIN_IS_HIGH RELEASED_STATE wake g).1 = PRESSED_STATE ∧
      (Button_2_Monitor_loop t now1 now2 PIN_IS_HIGH RELEASED_STATE wake g).2.2.sendLog
        = g.sendLog ++ Btn2Pressed ∧
      (Button_2_Monitor_loop t now1 now2 PIN_IS_HIGH RELEASED_STATE wake g).2.2.Queue1.contents
        = g.Queue1.contents ++ Btn2Pressed) ∧
    ((Button_2_Monitor_loop t now1 now2 PIN_IS_LOW PRESSED_STATE wake g).1 = RELEASED_STATE ∧
      (Button_2_Monitor_loop t now1 now2 PIN_IS_LOW PRESSED_STATE wake g).2.2.sendLog
        = g.sendLog ++ Btn2Released ∧
      (Button_2_Monitor_loop t now1 now2 PIN_IS_LOW PRESSED_STATE wake g).2.2.Queue1.contents
        = g.Queue1.contents ++ Btn2Released) ∧
    (∀ (entry : TaskId → Nat) (a1 b1 a2 b2 a3 b3 : Nat),
      (run t (boot entry) [.Button_1 a1 b1 PIN_IS_LOW, .Button_1 a2 b2 PIN_IS_HIGH,
        .Button_1 a3 b3 PIN_IS_LOW]).g.Queue1.contents = Btn1Pressed ++ Btn1Released ∧
      (run t (boot entry) [.Button_1 a1 b1 PIN_IS_LOW, .Button_1 a2 b2 PIN_IS_HIGH,
        .Button_1 a3 b3 PIN_IS_LOW]).g.sendLog = Btn1Pressed ++ Btn1Released ∧
      (run t (boot entry) [.Button_1 a1 b1 PIN_IS_LOW, .Button_1 a2 b2 PIN_IS_HIGH,
        .Button_1 a3 b3 PIN_IS_LOW]).Button_1_state = RELEASED_STATE ∧
      (run t (boot entry) [.Button_2 a1 b1 PIN_IS_LOW, .Button_2 a2 b2 PIN_IS_HIGH,
        .Button_2 a3 b3 PIN_IS_LOW]).g.Queue1.contents = Btn2Pressed ++ Btn2Released ∧
      (run t (boot entry) [.Button_2 a1 b1 PIN_IS_LOW, .Button_2 a2 b2 PIN_IS_HIGH,
        .Button_2 a3 b3 PIN_IS_LOW]).g.sendLog = Btn2Pressed ++ Btn2Released ∧
      (run t (boot entry) [.Button_2 a1 b1 PIN_IS_LOW, .Button_2 a2 b2 PIN_IS_HIGH,
        .Button_2 a3 b3 PIN_IS_LOW]).Button_2_state = RELEASED_STATE) := by
  have l1 : Btn1Pressed.length = 14 := by decide
  have l2 : Btn1Released.length = 15 := by decide
  have l3 : Btn2Pressed.length = 13 := by decide
  have l4 : Btn2Released.length = 14 := by decide
  simp only [Button_1_Monitor_loop_eq, Button_2_Monitor_loop_eq, Button_1_Monitor_body_press,
    Button_1_Monitor_body_release, Button_2_Monitor_body_press, Button_2_Monitor_body_release,
    missCheck_sendLog, missCheck_Queue1, sendString_sendLog, true_and]
  refine ⟨sendString_contents _ g hwf (by omega), sendString_contents _ g hwf (by omega),
    sendString_contents _ g hwf (by omega), sendString_contents _ g hwf (by omega), ?_⟩
  intro entry a1 b1 a2 b2 a3 b3
  have i1 : ∀ g0, Button_1_Monitor_body RELEASED_STATE PIN_IS_LOW g0 = (RELEASED_STATE, g0) :=
    fun g0 => Button_1_Monitor_body_idle _ _ g0 (by decide) (by decide)
  have i2 : ∀ g0, Button_2_Monitor_body RELEASED_STATE PIN_IS_LOW g0 = (RELEASED_STATE, g0) :=
    fun g0 => Button_2_Monitor_body_idle _ _ g0 (by decide) (by decide)
  have hq : ∀ P a b, (missCheck P a b main).Queue1 = main.Queue1 :=
    fun P a b => missCheck_Queue1 P a b main
  have hmain : main.Queue1.count = 0 ∧ main.Queue1.capacity = 200 ∧ main.Queue1.contents = []
      ∧ main.sendLog = [] := ⟨rfl, rfl, xQueueCreate_contents 200, rfl⟩
  have t1 := sendString_twice (missCheck BUTTON_1_MONITOR_P a1 b1 main) BUTTON_1_MONITOR_P a2 b2
    Btn1Pressed Btn1Released (by rw [hq]; exact main_Queue1_WF)
    (by rw [hq, l1, l2, hmain.1, hmain.2.1]; decide)
  have t2 := sendString_twice (missCheck BUTTON_2_MONITOR_P a1 b1 main) BUTTON_2_MONITOR_P a2 b2
    Btn2Pressed Btn2Released (by rw [hq]; exact main_Queue1_WF)
    (by rw [hq, l3, l4, hmain.1, hmain.2.1]; decide)
  rw [hq, missCheck_sendLog, hmain.2.2.1, hmain.2.2.2] at t1 t2
  simp only [run, List.foldl, step_Button_1, step_Button_2, boot, i1, i2,
    Button_1_Monitor_body_press, Button_1_Monitor_body_release, Button_2_Monitor_body_press,
    Button_2_Monitor_body_release, missCheck_sendLog, missCheck_Queue1]
  simp only [List.nil_append] at t1 t2
  exact ⟨t1.1, t1.2, trivial, t2.1, t2.2, trivial⟩

/-- C3 at the globals of start-up: the empty channel of capacity 200. -/
theorem C3_edges_enqueue_messages_witness :
    (Button_1_Monitor_loop 1 0 0 PIN_IS_HIGH RELEASED_STATE 0 main).2.2.Queue1.contents
      = main.Queue1.contents ++ Btn1Pressed ∧
    (Button_1_Monitor_loop 1 0 0 PIN_IS_LOW PRESSED_STATE 0 main).2.2.Queue1.contents
      = main.Queue1.contents ++ Btn1Released :=
  ⟨(C3_edges_enqueue_messages 1 0 0 0 main main_Queue1_WF (by decide)).1.2.2,
   (C3_edges_enqueue_messages 1 0 0 0 main main_Queue1_WF (by decide)).2.1.2.2⟩

/-- C4: for each button monitor, a pass whose sampled level matches the state (RELEASED
with LOW, PRESSED with HIGH) calls `xQueueSend` not once, leaves the queue as it was and
keeps the state, whatever the tick samples and the globals. Hence, from every state of the
application, in a run of passes that all sample the same level only the first pass can
send, and it sends at most one message: after it the record of sends, the queue and the
state no longer change. And from state RELEASED a run of HIGH samples followed by a run of
LOW samples sends exactly the pressed message followed by the released message and ends in
RELEASED, ready for the next cycle. -/
theorem C4_no_edge_no_send (t : Nat) (s : System) (level : pinState_t) (p q : Nat × Nat)
    (ps qs : List (Nat × Nat)) :
    (∀ (now1 now2 wake : Nat) (g : Globals),
      ((Button_1_Monitor_loop t now1 now2 PIN_IS_LOW RELEASED_STATE wake g).1 = RELEASED_STATE ∧
        (Button_1_Monitor_loop t now1 now2 PIN_IS_LOW RELEASED_STATE wake g).2.2.sendLog
          = g.sendLog ∧
        (Button_1_Monitor_loop t now1 now2 PIN_IS_LOW RELEASED_STATE wake g).2.2.Queue1
          = g.Queue1) ∧
      ((Button_1_Monitor_loop t now1 now2 PIN_IS_HIGH PRESSED_STATE wake g).1 = PRESSED_STATE ∧
        (Button_1_Monitor_loop t now1 now2 PIN_IS_HIGH PRESSED_STATE wake g).2.2.sendLog
          = g.sendLog ∧
        (Button_1_Monitor_loop t now1 now2 PIN_IS_HIGH PRESSED_STATE wake g).2.2.Queue1
          = g.Queue1) ∧
      ((Button_2_Monitor_loop t now1 now2 PIN_IS_LOW RELEASED_STATE wake g).1 = RELEASED_STATE ∧
        (Button_2_Monitor_loop t now1 now2 PIN_IS_LOW RELEASED_STATE wake g).2.2.sendLog
          = g.sendLog ∧
        (Button_2_Monitor_loop t now1 now2 PIN_IS_LOW RELEASED_STATE wake g).2.2.Queue1
          = g.Queue1) ∧
      ((Button_2_Monitor_loop t now1 now2 PIN_IS_HIGH PRESSED_STATE wake g).1 = PRESSED_STATE ∧
        (Button_2_Monitor_loop t now1 now2 PIN_IS_HIGH PRESSED_STATE wake g).2.2.sendLog
          = g.sendLog ∧
        (Button_2_Monitor_loop t now1 now2 PIN_IS_HIGH PRESSED_STATE wake g).2.2.Queue1
          = g.Queue1)) ∧
    ((run t s (Button_1_samples level (p :: ps))).g.sendLog
        = (step t s (.Button_1 p.1 p.2 level)).g.sendLog ∧
      (run t s (Button_1_samples level (p :: ps))).g.Queue1
        = (step t s (.Button_1 p.1 p.2 level)).g.Queue1 ∧
      (run t s (Button_1_samples level (p :: ps))).Button_1_state
        = (step t s (.Button_1 p.1 p.2 level)).Button_1_state ∧
      ((step t s (.Button_1 p.1 p.2 level)).g.sendLog = s.g.sendLog ∨
        (step t s (.Button_1 p.1 p.2 level)).g.sendLog = s.g.sendLog ++ Btn1Pressed ∨
        (step t s (.Button_1 p.1 p.2 level)).g.sendLog = s.g.sendLog ++ Btn1Released)) ∧
    ((run t s (Button_2_samples level (p :: ps))).g.sendLog
        = (step t s (.Button_2 p.1 p.2 level)).g.sendLog ∧
      (run t s (Button_2_samples level (p :: ps))).g.Queue1
        = (step t s (.Button_2 p.1 p.2 level)).g.Queue1 ∧
      (run t s (Button_2_samples level (p :: ps))).Button_2_state
        = (step t s (.Button_2 p.1 p.2 level)).Button_2_state ∧
      ((step t s (.Button_2 p.1 p.2 level)).g.sendLog = s.g.sendLog ∨
        (step t s (.Button_2 p.1 p.2 level)).g.sendLog = s.g.sendLog ++ Btn2Pressed ∨
        (step t s (.Button_2 p.1 p.2 level)).g.sendLog = s.g.sendLog ++ Btn2Released)) ∧
    (s.Button_1_state = RELEASED_STATE →
      (run t s (Button_1_samples PIN_IS_HIGH (p :: ps) ++
        Button_1_samples PIN_IS_LOW (q :: qs))).g.sendLog
        = s.g.sendLog ++ Btn1Pressed ++ Btn1Released ∧
      (run t s (Button_1_samples PIN_IS_HIGH (p :: ps) ++
        Button_1_samples PIN_IS_LOW (q :: qs))).Button_1_state = RELEASED_STATE) ∧
    (s.Button_2_state = RELEASED_STATE →
      (run t s (Button_2_samples PIN_IS_HIGH (p :: ps) ++
        Button_2_samples PIN_IS_LOW (q :: qs))).g.sendLog
        = s.g.sendLog ++ Btn2Pressed ++ Btn2Released ∧
      (run t s (Button_2_samples PIN_IS_HIGH (p :: ps) ++
        Button_2_samples PIN_IS_LOW (q :: qs))).Button_2_state = RELEASED_STATE) := by
  refine ⟨?_, ?_, ?_, ?_, ?_⟩
  · intro now1 now2 wake g
    simp only [Button_1_Monitor_loop_eq, Button_2_Monitor_loop_eq, missCheck_sendLog,
      missCheck_Queue1]
    rw [Button_1_Monitor_body_idle RELEASED_STATE PIN_IS_LOW g (by decide) (by decide),
      Button_1_Monitor_body_idle PRESSED_STATE PIN_IS_HIGH g (by decide) (by decide),
      Button_2_Monitor_body_idle RELEASED_STATE PIN_IS_LOW g (by decide) (by decide),
      Button_2_Monitor_body_idle PRESSED_STATE PIN_IS_HIGH g (by decide) (by decide)]
    simp
  · have hset := Button_1_Monitor_body_settled s.Button_1_state level s.g
    have hst : (step t s (.Button_1 p.1 p.2 level)).Button_1_state
        = (Button_1_Monitor_body s.Button_1_state level s.g).1 := by rw [step_Button_1]
    have r := run_Button_1_samples_settled t level ps (step t s (.Button_1 p.1 p.2 level))
      (by rw [hst]; exact hset.1) (by rw [hst]; exact hset.2)
    exact ⟨r.2.1, r.2.2, r.1, step_Button_1_sendLog t s p.1 p.2 level⟩
  · have hset := Button_2_Monitor_body_settled s.Button_2_state level s.g
    have hst : (step t s (.Button_2 p.1 p.2 level)).Button_2_state
        = (Button_2_Monitor_body s.Button_2_state level s.g).1 := by rw [step_Button_2]
    have r := run_Button_2_samples_settled t level ps (step t s (.Button_2 p.1 p.2 level))
      (by rw [hst]; exact hset.1) (by rw [hst]; exact hset.2)
    exact ⟨r.2.1, r.2.2, r.1, step_Button_2_sendLog t s p.1 p.2 level⟩
  · intro h
    have r := run_Button_1_cycle t s p q ps qs h
    exact ⟨r.2, r.1⟩
  · intro h
    have r := run_Button_2_cycle t s p q ps qs h
    exact ⟨r.2, r.1⟩

/-- C4 at start-up: three HIGH samples followed by two LOW samples of `Button_1_Monitor`
send the pressed message and then the released message, nothing else. -/
theorem C4_no_edge_no_send_witness :
    (run 1 (boot (fun _ => 0)) (Button_1_samples PIN_IS_HIGH [(0, 1), (50, 51), (100, 101)] ++
      Button_1_samples PIN_IS_LOW [(150, 151), (200, 201)])).g.sendLog
      = (boot (fun _ => 0)).g.sendLog ++ Btn1Pressed ++ Btn1Released ∧
    (run 1 (boot (fun _ => 0)) (Button_1_samples PIN_IS_HIGH [(0, 1), (50, 51), (100, 101)] ++
      Button_1_samples PIN_IS_LOW [(150, 151), (200, 201)])).Button_1_state = RELEASED_STATE :=
  (C4_no_edge_no_send 1 (boot (fun _ => 0)) PIN_IS_LOW (0, 1) (150, 151) [(50, 51), (100, 101)]
    [(200, 201)]).2.2.2.1 rfl

/-- C10: the state a button monitor moves to is a function of its prior state and of the
sampled level alone: for every prior state and level it is the same for any two globals
(any two channel states, a full channel included), tick samples and tick lengths, because
the results of the sends are discarded. In particular, from RELEASED with a full
well-formed channel (of capacity at least 15) a HIGH sample moves the monitor to PRESSED
although the channel is left exactly as it was (no byte of the pressed message is
accepted), and after a pass of `Uart_Receiver` has made room a LOW sample leaves the
channel holding the released message alone, no pressed message before it. -/
theorem C10_state_ignores_channel (t t' n1 n2 n1' n2' w w' state : Nat) (level : pinState_t)
    (g1 g2 : Globals) (s : System) (a1 b1 a2 b2 a3 b3 : Nat)
    (h1 : s.Button_1_state = RELEASED_STATE) (h2 : s.Button_2_state = RELEASED_STATE)
    (hfull : ¬ s.g.Queue1.count < s.g.Queue1.capacity) (hwf : s.g.Queue1.WF)
    (hcap : 15 ≤ s.g.Queue1.capacity) :
    ((Button_1_Monitor_loop t n1 n2 level state w g1).1
        = (Button_1_Monitor_loop t' n1' n2' level state w' g2).1 ∧
      (Button_1_Monitor_loop t n1 n2 level state w g1).1
        = (if state = RELEASED_STATE ∧ level = PIN_IS_HIGH then PRESSED_STATE
           else if state = PRESSED_STATE ∧ level = PIN_IS_LOW then RELEASED_STATE
           else state)) ∧
    ((Button_2_Monitor_loop t n1 n2 level state w g1).1
        = (Button_2_Monitor_loop t' n1' n2' level state w' g2).1 ∧
      (Button_2_Monitor_loop t n1 n2 level state w g1).1
        = (if state = RELEASED_STATE ∧ level = PIN_IS_HIGH then PRESSED_STATE
           else if state = PRESSED_STATE ∧ level = PIN_IS_LOW then RELEASED_STATE
           else state)) ∧
    ((step t s (.Button_1 a1 b1 PIN_IS_HIGH)).Button_1_state = PRESSED_STATE ∧
      (step t s (.Button_1 a1 b1 PIN_IS_HIGH)).g.Queue1 = s.g.Queue1 ∧
      (step t s (.Button_1 a1 b1 PIN_IS_HIGH)).g.sendLog = s.g.sendLog ++ Btn1Pressed ∧
      (run t s [.Button_1 a1 b1 PIN_IS_HIGH, .Receiver a2 b2,
        .Button_1 a3 b3 PIN_IS_LOW]).g.Queue1.contents = Btn1Released ∧
      (run t s [.Button_1 a1 b1 PIN_IS_HIGH, .Receiver a2 b2,
        .Button_1 a3 b3 PIN_IS_LOW]).g.serial = s.g.serial ++ s.g.Queue1.contents ∧
      (run t s [.Button_1 a1 b1 PIN_IS_HIGH, .Receiver a2 b2,
        .Button_1 a3 b3 PIN_IS_LOW]).Button_1_state = RELEASED_STATE) ∧
    ((step t s (.Button_2 a1 b1 PIN_IS_HIGH)).Button_2_state = PRESSED_STATE ∧
      (step t s (.Button_2 a1 b1 PIN_IS_HIGH)).g.Queue1 = s.g.Queue1 ∧
      (step t s (.Button_2 a1 b1 PIN_IS_HIGH)).g.sendLog = s.g.sendLog ++ Btn2Pressed ∧
      (run t s [.Button_2 a1 b1 PIN_IS_HIGH, .Receiver a2 b2,
        .Button_2 a3 b3 PIN_IS_LOW]).g.Queue1.contents = Btn2Released ∧
      (run t s [.Button_2 a1 b1 PIN_IS_HIGH, .Receiver a2 b2,
        .Button_2 a3 b3 PIN_IS_LOW]).g.serial = s.g.serial ++ s.g.Queue1.contents ∧
      (run t s [.Button_2 a1 b1 PIN_IS_HIGH, .Receiver a2 b2,
        .Button_2 a3 b3 PIN_IS_LOW]).Button_2_state = RELEASED_STATE) := by
  refine ⟨?_, ?_, Button_1_press_dropped t s a1 b1 a2 b2 a3 b3 h1 hfull hwf hcap,
    Button_2_press_dropped t s a1 b1 a2 b2 a3 b3 h2 hfull hwf hcap⟩
  · simp only [Button_1_Monitor_loop_eq, Button_1_Monitor_body]
    split
    · exact ⟨rfl, rfl⟩
    · split <;> exact ⟨rfl, rfl⟩
  · simp only [Button_2_Monitor_loop_eq, Button_2_Monitor_body]
    split
    · exact ⟨rfl, rfl⟩
    · split <;> exact ⟨rfl, rfl⟩

/-- C10 at the queue filled by twenty-nine passes of `Periodic_Transmitter`: the press of
button 1 is dropped whole, the monitor is PRESSED all the same, and after the receiver has
run the release leaves `Btn1Released` alone in the queue. -/
theorem C10_state_ignores_channel_witness :
    (step 1 queueFilled (.Button_1 0 1 PIN_IS_HIGH)).Button_1_state = PRESSED_STATE ∧
    (step 1 queueFilled (.Button_1 0 1 PIN_IS_HIGH)).g.Queue1 = queueFilled.g.Queue1 ∧
    (run 1 queueFilled [.Button_1 0 1 PIN_IS_HIGH, .Receiver 2 3,
      .Button_1 50 51 PIN_IS_LOW]).g.Queue1.contents = Btn1Released :=
  ⟨(C10_state_ignores_channel 1 1 0 1 0 1 0 0 RELEASED_STATE PIN_IS_HIGH main main queueFilled
      0 1 2 3 50 51 queueFilled_full.1 queueFilled_full.2.1 queueFilled_full.2.2.1
      queueFilled_full.2.2.2.1 queueFilled_full.2.2.2.2).2.2.1.1,
   (C10_state_ignores_channel 1 1 0 1 0 1 0 0 RELEASED_STATE PIN_IS_HIGH main main queueFilled
      0 1 2 3 50 51 queueFilled_full.1 queueFilled_full.2.1 queueFilled_full.2.2.1
      queueFilled_full.2.2.2.1 queueFilled_full.2.2.2.2).2.2.1.2.1,
   (C10_state_ignores_channel 1 1 0 1 0 1 0 0 RELEASED_STATE PIN_IS_HIGH main main queueFilled
      0 1 2 3 50 51 queueFilled_full.1 queueFilled_full.2.1 queueFilled_full.2.2.1
      queueFilled_full.2.2.2.1 queueFilled_full.2.2.2.2).2.2.1.2.2.2.1⟩

end FreeRTOS_EDF
